import Mathlib

/-!
# CareOClock: the claims of the specification, checked against the code

A shallow embedding of the parts of the repository the claims are about:

* `backend/controllers/medicineController.js` (`getLowStockMedicines`, `deleteMedicine`,
  `createMedicine`);
* `backend/controllers/appointmentController.js` (`createAppointment`, `updateAppointment`);
* `backend/controllers/userController.js` (`getUserById`);
* `frontend/src/pages/Reports.jsx` (`fetchReportData`, the derived chart series, the summary
  cards, `AdherenceInsights`);
* `frontend/src/api/alertApi.js` and the alert lists and adherence bands of
  `CaregiverDashboard.jsx` and `DoctorDashboard.jsx`.

The adherence calculator and the alert store are not part of the source tree; they are modelled
from the specification and marked so.

Document stores are lists of records, a handler is a function from the store and the request to
its answer (and, where it writes, the new store), and the asynchronous page loader is a function
from the answers of the three requests to the new page state and the list of requests issued.
-/

namespace CareOClock

/-! ## Backend: identifiers and the medicine collection -/

/-- The two operations of mongoose's `Types.ObjectId` the controllers use. The library is not part
of the repository, so it is a parameter: `isValid` is `mongoose.Types.ObjectId.isValid` and
`objectId s` is `new mongoose.Types.ObjectId(s)`, an ObjectId being written as its hex string. -/
structure ObjectIdLib where
  isValid : String → Bool
  objectId : String → String

/-- Modelled from the spec: the Medicine record (`models/Medicine.js` is not in the source tree).
The spec gives a medicine its owner `userId`, `name`, integer `stock`, an own low-stock threshold
that may be absent, and the active flag; `_id` is the document id every stored document has. -/
structure Medicine where
  _id : String
  userId : String
  name : String
  stock : Int
  lowStockAlert : Option Int
  isActive : Bool
deriving DecidableEq, Repr

/-- The request fields the medicine handlers read: `req.params.userId`, `req.params.id` and
`req.user._id` (set by the `protect` middleware on every medicine route). -/
structure MedicineRequest where
  paramsUserId : Option String
  paramsId : String
  user_id : String
deriving DecidableEq, Repr

/-- The JSON answer of a medicine handler: `res.status(status).json(...)` with the `success` flag
and `message`; `data` is the payload handed to `sendSuccess`, absent on the error answers. -/
structure MedicineResponse where
  status : Nat
  success : Bool
  message : String
  data : Option (List Medicine)
deriving DecidableEq, Repr

/-- The filter object of a `Medicine.find` call: `userId`, `isActive` and the `$lte` bound
on `stock`. -/
structure MedicineQuery where
  userId : String
  isActive : Bool
  stockLte : Int
deriving DecidableEq, Repr

/-- JavaScript `a || b` for an optional string and a fallback: an absent value and the empty string
are falsy. -/
def orElse (a : Option String) (b : String) : String :=
  match a with
  | some s => if s = "" then b else s
  | none => b

/-- Whether a stored medicine matches a `Medicine.find` filter. -/
def MedicineQuery.matches (q : MedicineQuery) (m : Medicine) : Bool :=
  m.userId == q.userId && m.isActive == q.isActive && decide (m.stock ≤ q.stockLte)

/-- The answer of `Medicine.find(q)` on a store. -/
def Medicine.find (store : List Medicine) (q : MedicineQuery) : List Medicine :=
  store.filter q.matches

/-- The user id `getLowStockMedicines` works with: `req.params.userId || req.user._id`. -/
def requestedUserId (req : MedicineRequest) : String :=
  orElse req.paramsUserId req.user_id

/-- The handler `getLowStockMedicines` of medicineController.js: the answer and the list of store
queries it issued. The bound `7` is the literal of the source. -/
def getLowStockMedicines (lib : ObjectIdLib) (store : List Medicine) (req : MedicineRequest) :
    MedicineResponse × List MedicineQuery :=
  let userId := requestedUserId req
  if lib.isValid userId = false then
    (⟨400, false, "Invalid userId", none⟩, [])
  else
    let q : MedicineQuery := ⟨lib.objectId userId, true, 7⟩
    let medicines := Medicine.find store q
    (⟨200, true, "Low stock medicines retrieved", some medicines⟩, [q])

/-- The medicines an answer carries (none on an error answer). -/
def MedicineResponse.medicines (r : MedicineResponse) : List Medicine :=
  r.data.getD []

/-- The call `Medicine.findByIdAndDelete(id)` of mongoose on a store: the first document with that
`_id` is removed and returned, `none` (JavaScript `null`) when there is none. -/
def Medicine.findByIdAndDelete (store : List Medicine) (id : String) :
    Option Medicine × List Medicine :=
  match store.find? (fun m => m._id == id) with
  | some m => (some m, store.eraseP (fun m => m._id == id))
  | none => (none, store)

/-- The handler `deleteMedicine` of medicineController.js: the answer and the store it leaves.
`req.params.id` is taken to be castable to an ObjectId (otherwise mongoose throws before touching
the store). -/
def deleteMedicine (store : List Medicine) (req : MedicineRequest) :
    MedicineResponse × List Medicine :=
  match Medicine.findByIdAndDelete store req.paramsId with
  | (none, s) => (⟨404, false, "Medicine not found", none⟩, s)
  | (some _, s) => (⟨200, true, "Medicine deleted successfully", none⟩, s)

/-- The threshold of a medicine as the specification words it: the own value when set, else the
global default. -/
def specThreshold (globalDefault : Int) (m : Medicine) : Int :=
  m.lowStockAlert.getD globalDefault

/-- The Stock Monitor as the specification words it: `flagLowStock` keeps the medicines with
`stock <= threshold`. -/
def specFlagLowStock (globalDefault : Int) (medicines : List Medicine) : List Medicine :=
  medicines.filter (fun m => decide (m.stock ≤ specThreshold globalDefault m))

/-! ## Frontend: JavaScript values -/

/-- A numeric field of a JSON payload as the page sees it: absent (`undefined`), `null`, a number,
or `NaN`. Numbers are exact rationals; the payloads carry no strings in their numeric fields. -/
inductive JsNum where
  | undefined
  | null
  | num (q : ℚ)
  | nan
deriving DecidableEq

namespace JsNum

/-- JavaScript truthiness: a number other than 0 and `NaN`. -/
def truthy : JsNum → Bool
  | num q => decide (q ≠ 0)
  | _ => false

/-- The expression `x || 0`. -/
def orZero (x : JsNum) : JsNum :=
  if x.truthy then x else num 0

/-- The numeric value `ToNumber(x)`: `none` stands for `NaN`. -/
def toNumber : JsNum → Option ℚ
  | undefined => none
  | null => some 0
  | num q => some q
  | nan => none

/-- The comparison `x >= c` for a numeric literal `c` (false when `x` converts to `NaN`). -/
def ge (x : JsNum) (c : ℚ) : Bool :=
  match x.toNumber with
  | some q => decide (c ≤ q)
  | none => false

/-- The comparison `x < c` for a numeric literal `c` (false when `x` converts to `NaN`). -/
def lt (x : JsNum) (c : ℚ) : Bool :=
  match x.toNumber with
  | some q => decide (q < c)
  | none => false

/-- The global `isNaN(x)`. -/
def isNaN (x : JsNum) : Bool :=
  x.toNumber.isNone

end JsNum

/-- The conversion `Number(x)`. -/
def Number (x : JsNum) : JsNum :=
  match x.toNumber with
  | some q => .num q
  | none => .nan

/-- The function `Math.round(x)`: the nearest integer, halves up; `none` stands for `NaN`. -/
def Math.round (x : JsNum) : Option Int :=
  x.toNumber.map fun q => ⌊q + 1 / 2⌋

/-- The text of a rounded number in a template literal. -/
def showRounded : Option Int → String
  | some n => toString n
  | none => "NaN"

/-- Truthiness of an optional string (`r.date && ...`): absent, `null` and the empty string are
falsy. -/
def truthyString : Option String → Bool
  | some s => s != ""
  | none => false

/-- The date functions of the JavaScript host the page calls, a parameter of the model:
`toLocaleDateString d` is `new Date(d).toLocaleDateString()` and `dateValue d` the time value of
`new Date(d)`, `none` for an invalid date. -/
structure Host where
  toLocaleDateString : String → String
  dateValue : String → Option Int

/-- The order `(a, b) => new Date(a.date) - new Date(b.date)` puts on two dates: `a` may stay
before `b` unless the difference is positive (a `NaN` difference counts as 0). -/
def Host.dateLe (host : Host) (a b : String) : Bool :=
  match host.dateValue a, host.dateValue b with
  | some x, some y => decide (x ≤ y)
  | _, _ => true

/-- The call `.sort((a, b) => new Date(a.date) - new Date(b.date))`: a stable sort by date. -/
def sortByDate {α : Type} (host : Host) (date : α → String) (l : List α) : List α :=
  l.insertionSort fun a b => host.dateLe (date a) (date b) = true

/-! ## Frontend: the Reports page -/

/-- The `overall` section of an adherence report. -/
structure Overall where
  adherenceRate : JsNum
  totalIntakes : JsNum
deriving DecidableEq

/-- The `streak` section of an adherence report. -/
structure Streak where
  currentStreak : JsNum
  longestStreak : JsNum
deriving DecidableEq

/-- An entry of the `daily` series. -/
structure Day where
  date : Option String
  adherenceRate : JsNum
deriving DecidableEq

/-- The adherence report held in the page state; a section that is absent is `none` (for `daily`
also when it is no array). -/
structure AdherenceData where
  overall : Option Overall
  streak : Option Streak
  daily : Option (List Day)
deriving DecidableEq

/-- The `bloodPressure` object of a health reading. -/
structure BloodPressure where
  systolic : JsNum
  diastolic : JsNum
deriving DecidableEq

/-- The `bloodSugar` object of a health reading. -/
structure BloodSugar where
  value : JsNum
deriving DecidableEq

/-- A record of `healthRes.data.trends`: every part may be absent. -/
structure HealthReading where
  date : Option String
  bloodPressure : Option BloodPressure
  bloodSugar : Option BloodSugar
deriving DecidableEq

/-- The expression `r.bloodPressure?.systolic`. -/
def HealthReading.systolic (r : HealthReading) : JsNum :=
  match r.bloodPressure with
  | some bp => bp.systolic
  | none => .undefined

/-- The expression `r.bloodPressure?.diastolic`. -/
def HealthReading.diastolic (r : HealthReading) : JsNum :=
  match r.bloodPressure with
  | some bp => bp.diastolic
  | none => .undefined

/-- The expression `r.bloodSugar?.value`. -/
def HealthReading.sugar (r : HealthReading) : JsNum :=
  match r.bloodSugar with
  | some bs => bs.value
  | none => .undefined

/-- A record of the normalised trend series. -/
structure Trend where
  date : String
  bloodPressure : BloodPressure
  bloodSugar : BloodSugar
deriving DecidableEq

/-- The filter of `normalizedTrends`: a truthy date and all three vitals `!== undefined`. -/
def trendFilter (r : HealthReading) : Bool :=
  truthyString r.date && r.systolic != .undefined && r.diastolic != .undefined &&
    r.sugar != .undefined

/-- The map of `normalizedTrends` (applied to records that passed `trendFilter`, whose date and
vital objects are present). -/
def normalizeRecord (host : Host) (record : HealthReading) : Trend where
  date := host.toLocaleDateString (record.date.getD "")
  bloodPressure := ⟨Number record.systolic, Number record.diastolic⟩
  bloodSugar := ⟨Number record.sugar⟩

/-- The value `normalizedTrends` of `fetchReportData`: filter, map, sort by date. -/
def normalizedTrends (host : Host) (rawTrends : List HealthReading) : List Trend :=
  sortByDate host Trend.date ((rawTrends.filter trendFilter).map (normalizeRecord host))

/-- The answer of an awaited request: the promise rejects or resolves with a body. -/
inductive Answer (α : Type) where
  | rejected
  | resolved (body : α)

/-- The body `adherenceRes`: its `data` is the adherence report (absent when `undefined`). -/
structure AdherenceRes where
  data : Option AdherenceData

/-- The body `healthRes`: `trends` is `healthRes.data.trends` when that is an array. -/
structure HealthRes where
  trends : Option (List HealthReading)

/-- The body `dailyResponse`: `daily` is `dailyResponse.data.daily` when present. -/
structure DailyRes where
  daily : Option (List Day)

/-- The calls `fetchReportData` makes on `intakeApi` and `healthApi`, with their arguments. The
first argument is the user id (always `null` here); a time range is either a day count or a start
and an end instant in milliseconds (sent as ISO strings). -/
inductive ApiRequest where
  | getAdherenceStats (userId : Option String) (days : Nat)
  | getHealthTrends (userId : Option String) (days : Nat)
  | getDailyAdherenceStats (userId : Option String) (startDate endDate : Int)
deriving DecidableEq, Repr

/-- Whether a request expresses its time range as an absolute `[start, end]` window. -/
def ApiRequest.hasAbsoluteWindow : ApiRequest → Bool
  | .getDailyAdherenceStats _ _ _ => true
  | _ => false

/-- The relative day count a request carries, if it carries one. -/
def ApiRequest.dayCount : ApiRequest → Option Nat
  | .getAdherenceStats _ days => some days
  | .getHealthTrends _ days => some days
  | .getDailyAdherenceStats _ _ _ => none

/-- The modules `intakeApi` and `healthApi` (not in the source tree), as the answers they give. -/
structure ReportsApi where
  getAdherenceStats : Option String → Nat → Answer AdherenceRes
  getHealthTrends : Option String → Nat → Answer HealthRes
  getDailyAdherenceStats : Option String → Int → Int → Answer DailyRes

/-- The state of the Reports component. -/
structure ReportsState where
  adherenceData : Option AdherenceData
  healthTrends : List Trend
  timeRange : Nat
  loading : Bool
deriving DecidableEq

/-- The initial state: `useState(null)`, `useState([])`, `useState(30)`, `useState(true)`. -/
def ReportsState.initial : ReportsState := ⟨none, [], 30, true⟩

/-- The updater `prev => ({ ...prev, daily: dailyResponse.data.daily || [] })`. -/
def mergeDaily (prev : Option AdherenceData) (daily : Option (List Day)) : AdherenceData :=
  match prev with
  | some d => { d with daily := some (daily.getD []) }
  | none => ⟨none, none, some (daily.getD [])⟩

/-- The function `fetchReportData` of Reports.jsx: the state it leaves and the requests it issued.
`now1` and `now2` are the two clock readings, `Date.now()` and `new Date()`. A rejected request
throws into the `catch`, which only logs; `finally` turns `loading` off. -/
def fetchReportData (host : Host) (api : ReportsApi) (now1 now2 : Int) (s : ReportsState) :
    ReportsState × List ApiRequest :=
  let firstStage : List ApiRequest :=
    [.getAdherenceStats none s.timeRange, .getHealthTrends none s.timeRange]
  match api.getAdherenceStats none s.timeRange, api.getHealthTrends none s.timeRange with
  | .resolved adherenceRes, .resolved healthRes =>
    let s1 := { s with adherenceData := adherenceRes.data }
    let rawTrends := healthRes.trends.getD []
    let s2 := { s1 with healthTrends := normalizedTrends host rawTrends }
    let startDate := now1 - (s.timeRange : Int) * 24 * 60 * 60 * 1000
    let endDate := now2
    let requests := firstStage ++ [.getDailyAdherenceStats none startDate endDate]
    match api.getDailyAdherenceStats none startDate endDate with
    | .resolved dailyResponse =>
      ({ s2 with adherenceData := some (mergeDaily s2.adherenceData dailyResponse.daily),
                 loading := false }, requests)
    | .rejected => ({ s2 with loading := false }, requests)
  | _, _ => ({ s with loading := false }, firstStage)

/-- A point of the adherence chart. -/
structure ChartPoint where
  date : String
  adherenceRate : Option Int
deriving DecidableEq

/-- The filter of `adherenceChartData`: a truthy date and a rate that is neither `undefined`
nor `null`. -/
def dayFilter (day : Day) : Bool :=
  truthyString day.date && day.adherenceRate != .undefined && day.adherenceRate != .null

/-- The value `adherenceChartData`: the `daily` series when it is an array (else empty),
filtered, mapped to rounded points and sorted by date. -/
def adherenceChartData (host : Host) (adherenceData : Option AdherenceData) : List ChartPoint :=
  let daily := (adherenceData.bind fun d => d.daily).getD []
  sortByDate host ChartPoint.date
    ((daily.filter dayFilter).map fun day =>
      ⟨host.toLocaleDateString (day.date.getD ""), Math.round day.adherenceRate⟩)

/-- The four summary cards with the values they present. -/
structure SummaryCards where
  overallAdherence : String
  currentStreak : JsNum
  bestStreak : JsNum
  totalDoses : JsNum
deriving DecidableEq

/-- What the summary section of the page renders. -/
inductive SummaryView where
  | noData
  | cards (c : SummaryCards)
  | typeError
deriving DecidableEq

/-- The expression `adherenceData.streak?.currentStreak`. -/
def AdherenceData.currentStreak (d : AdherenceData) : JsNum :=
  match d.streak with
  | some st => st.currentStreak
  | none => .undefined

/-- The expression `adherenceData.streak?.longestStreak`. -/
def AdherenceData.longestStreak (d : AdherenceData) : JsNum :=
  match d.streak with
  | some st => st.longestStreak
  | none => .undefined

/-- The values of the four cards for a report `d` whose `overall` object is `overall`. -/
def summaryCards (d : AdherenceData) (overall : Overall) : SummaryCards where
  overallAdherence := showRounded (Math.round overall.adherenceRate.orZero) ++ "%"
  currentStreak := d.currentStreak.orZero
  bestStreak := d.longestStreak.orZero
  totalDoses := overall.totalIntakes.orZero

/-- The summary section: the text "No adherence data available for selected period." when
`adherenceData` is falsy, else the four cards. Reading `adherenceData.overall.adherenceRate` when
`overall` is absent throws a TypeError. -/
def summarySection (adherenceData : Option AdherenceData) : SummaryView :=
  match adherenceData with
  | none => .noData
  | some d =>
    match d.overall with
    | none => .typeError
    | some overall => .cards (summaryCards d overall)

/-- The boxes `AdherenceInsights` can show. -/
inductive Insight where
  | excellentAdherence
  | goodProgress
  | needsAttention
deriving DecidableEq, Repr

/-- The component `AdherenceInsights`: the boxes shown for an adherence rate, in page order. -/
def AdherenceInsights (adherenceRate : JsNum) : List Insight :=
  (if adherenceRate.ge 90 then [.excellentAdherence] else []) ++
  (if adherenceRate.ge 70 && adherenceRate.lt 90 then [.goodProgress] else []) ++
  (if adherenceRate.lt 70 then [.needsAttention] else [])

/-! ## Frontend: the dashboards -/

/-- The colours of the caregiver dashboard's adherence figure and bar. -/
inductive Colour where
  | green
  | yellow
  | red
deriving DecidableEq, Repr

/-- The colour the caregiver dashboard gives an adherence value:
`adherence >= 90 ? green : adherence >= 70 ? yellow : red`. -/
def caregiverAdherenceColour (adherence : JsNum) : Colour :=
  if adherence.ge 90 then .green else if adherence.ge 70 then .yellow else .red

/-- A row of the doctor dashboard's patient overview (the fields the metrics read). -/
structure PatientOverview where
  id : String
  riskLevel : String
  adherence : JsNum
deriving DecidableEq

/-- The value `highRiskPatients` of the doctor dashboard. -/
def highRiskPatients (patientOverview : List PatientOverview) : List PatientOverview :=
  patientOverview.filter fun p => p.riskLevel == "high" || p.adherence.lt 80

/-- The adherence bands as the specification words them: below 70 the most severe band, below 85
the middle band, else no concern. -/
inductive SpecBand where
  | severe
  | middle
  | noConcern
deriving DecidableEq, Repr

/-- The band of a rate by the specification's breakpoints 70 and 85. -/
def specBand (r : ℚ) : SpecBand :=
  if r < 70 then .severe else if r < 85 then .middle else .noConcern

/-- The band a list of insight boxes stands for: "Needs Attention" is the most severe band,
"Good Progress" the middle band, and no concern otherwise. -/
def insightBand (boxes : List Insight) : SpecBand :=
  if Insight.needsAttention ∈ boxes then .severe
  else if Insight.goodProgress ∈ boxes then .middle else .noConcern

/-- The band a caregiver colour stands for. -/
def colourBand : Colour → SpecBand
  | .red => .severe
  | .yellow => .middle
  | .green => .noConcern

/-! ### Concrete data for the worked examples -/

/-- Whether a character is one of `0-9`, `a-f`, `A-F`. -/
def isHexChar (c : Char) : Bool :=
  (decide (48 ≤ c.toNat) && decide (c.toNat ≤ 57)) ||
  (decide (97 ≤ c.toNat) && decide (c.toNat ≤ 102)) ||
  (decide (65 ≤ c.toNat) && decide (c.toNat ≤ 70))

/-- An ObjectId library that accepts the 24-character hex strings and reads such a string as the
ObjectId with the same digits. -/
def hexIds : ObjectIdLib where
  isValid := fun s => s.data.length == 24 && s.data.all isHexChar
  objectId := fun s => s

/-- The patient of the worked examples. -/
def alice : String := "64b7f0c2a1d4e5f6a7b8c9d0"

/-- Another patient. -/
def bob : String := "64b7f0c2a1d4e5f6a7b8c9d1"

/-- A request of `alice` for her own medicines (no `:userId` in the route). -/
def aliceRequest : MedicineRequest := ⟨none, "5f1d7f3e2b4c6a0012345601", alice⟩

/-- An active medicine of `alice` with the given id, stock and own threshold. -/
def aliceMedicine (id : String) (stock : Int) (own : Option Int) : Medicine :=
  ⟨id, alice, "Metformin", stock, own, true⟩

/-- The example medicine with stock 8 and own threshold 10. -/
def stock8own10 : Medicine := aliceMedicine "5f1d7f3e2b4c6a0012345601" 8 (some 10)

/-- The example medicine with stock 6 and own threshold 5. -/
def stock6own5 : Medicine := aliceMedicine "5f1d7f3e2b4c6a0012345602" 6 (some 5)

/-- A host for the worked examples: dates are written as day numbers in decimal digits, which
`toLocaleDateString` leaves as they are and `dateValue` reads as that number. -/
def exampleHost : Host where
  toLocaleDateString := fun d => d
  dateValue := fun d =>
    d.data.foldl
      (fun acc c => acc.bind fun n =>
        if decide (48 ≤ c.toNat) && decide (c.toNat ≤ 57) then some (n * 10 + (c.toNat - 48 : Nat))
        else none)
      (some 0)

/-- A dated reading that reports blood pressure only. -/
def bpOnlyReading : HealthReading := ⟨some "20250915", some ⟨.num 120, .num 80⟩, none⟩

/-- A dated reading that reports all three vitals. -/
def fullReading : HealthReading := ⟨some "20250916", some ⟨.num 130, .num 85⟩, some ⟨.num 110⟩⟩

/-- Whether a reading reports at least one vital field. -/
def HealthReading.reportsSomeVital (r : HealthReading) : Bool :=
  r.systolic != .undefined || r.diastolic != .undefined || r.sugar != .undefined

/-- An adherence report with no streak object and no `overall.totalIntakes`. -/
def partialReport : AdherenceData := ⟨some ⟨.num 80, .undefined⟩, none, some []⟩

/-- A complete adherence report as the adherence-stats request returns it (no daily series). -/
def fullReport : AdherenceData := ⟨some ⟨.num 80, .num 20⟩, some ⟨.num 3, .num 5⟩, none⟩

/-- A run in which the adherence-stats request succeeds and the health-trends request fails. -/
def healthDownApi : ReportsApi where
  getAdherenceStats := fun _ _ => .resolved ⟨some fullReport⟩
  getHealthTrends := fun _ _ => .rejected
  getDailyAdherenceStats := fun _ _ _ => .resolved ⟨some []⟩

/-- A run in which all three requests succeed. -/
def allUpApi : ReportsApi where
  getAdherenceStats := fun _ _ => .resolved ⟨some fullReport⟩
  getHealthTrends := fun _ _ => .resolved ⟨some [fullReading]⟩
  getDailyAdherenceStats := fun _ _ _ => .resolved ⟨some []⟩

/-- Whether a request resolved. -/
def Answer.isResolved {α : Type} : Answer α → Bool
  | .resolved _ => true
  | .rejected => false

/-! ## Frontend: the time range of the Reports page -/

/-- The day counts the time-range select of the Reports page offers (`<option value=...>`);
`onChange` stores the chosen one in `timeRange`, which starts at 30. -/
def selectableTimeRanges : List Nat := [7, 30, 90]

/-- The handler `onChange` of the select: `setTimeRange(Number(e.target.value))`. -/
def setTimeRange (s : ReportsState) (value : Nat) : ReportsState :=
  { s with timeRange := value }

/-- The number of milliseconds in a day. -/
def msPerDay : Int := 86400000

/-! ## The adherence calculator -/

/-- Modelled from the spec: an IntakeEvent, one scheduled dose of one medicine for one patient
(the intake model and the adherence computation of the backend are not in the source tree). The
spec gives it the patient, the medicine, the scheduled instant and the actual-taken instant,
absent when the dose was missed or is not yet due; an event is `taken` when that instant is set. -/
structure IntakeEvent where
  patient : String
  medicine : String
  scheduled : Int
  actualTaken : Option Int
deriving DecidableEq, Repr

/-- Modelled from the spec: whether the status of an intake event is `taken`. The status itself is
computed by backend code that is not in the source tree. -/
def IntakeEvent.isTaken (e : IntakeEvent) : Bool :=
  e.actualTaken.isSome

/-- Modelled from the spec: the totals and the overall rate of an AdherenceSummary. The summary
is computed by backend code that is not in the source tree. -/
structure AdherenceSummary where
  totalScheduled : Nat
  totalTaken : Nat
  adherenceRate : ℚ
deriving DecidableEq

/-- Modelled from the spec: `computeAdherence` on the intake events of a window, for the overall
part (the backend function is not in the source tree). The spec words the rate as
`100 * taken/scheduled`, and 0 when nothing is scheduled. -/
def computeAdherence (intakeEvents : List IntakeEvent) : AdherenceSummary where
  totalScheduled := intakeEvents.length
  totalTaken := intakeEvents.countP IntakeEvent.isTaken
  adherenceRate :=
    if intakeEvents.length = 0 then 0
    else 100 * (intakeEvents.countP IntakeEvent.isTaken : ℚ) / (intakeEvents.length : ℚ)

/-- Modelled from the spec: the `overall` section of the report the reporting API returns for a
summary (`overall.adherenceRate`, `overall.totalIntakes`); the API is not in the source tree. -/
def AdherenceSummary.overall (a : AdherenceSummary) : Overall :=
  ⟨.num a.adherenceRate, .num a.totalScheduled⟩

/-- Two doses taken out of three scheduled. -/
def twoOfThree : List IntakeEvent :=
  [⟨alice, "m1", 1757894400000, some 1757894460000⟩, ⟨alice, "m1", 1757937600000, none⟩,
    ⟨alice, "m2", 1757894400000, some 1757894400000⟩]

/-! ## Alerts -/

/-- The severities of an alert, as the specification lists them. -/
inductive Severity where
  | low
  | medium
  | high
  | critical
deriving DecidableEq, Repr

/-- The rank of a severity: critical > high > medium > low. -/
def Severity.rank : Severity → Nat
  | .low => 0
  | .medium => 1
  | .high => 2
  | .critical => 3

/-- Modelled from the spec: the Alert record (the alert model of the backend is not in the source
tree). The spec gives it the patient, the generating rule, the triggering entity, the severity,
title, message, created timestamp and the resolved flag; the dashboards read `severity`, `title`,
`message` and `createdAt`. -/
structure Alert where
  patient : String
  rule : String
  entity : String
  severity : Severity
  title : String
  message : String
  createdAt : Int
  resolved : Bool
deriving DecidableEq, Repr

/-- Modelled from the spec: the alert key (patient, rule identifier, triggering entity); the code
that keys alerts is not in the source tree. -/
def Alert.key (a : Alert) : String × String × String :=
  (a.patient, a.rule, a.entity)

/-- Modelled from the spec: whether the stored alert `e` is an unresolved alert with the key of
`a`, the match the generator looks for before emitting (the generator is not in the source
tree). -/
def Alert.matchesKey (a e : Alert) : Bool :=
  !e.resolved && e.key == a.key

/-- Modelled from the spec: what a match does to the existing record, "mutates
severity/message/timestamp of the existing record instead of inserting" (the generator is not in
the source tree). -/
def Alert.supersede (a e : Alert) : Alert :=
  if a.matchesKey e then
    { e with severity := a.severity, message := a.message, createdAt := a.createdAt }
  else e

/-- Modelled from the spec: the keyed upsert of an alert into the alert store, the handling of an
alert submission (the backend alert controller and the Alert Generator are not in the source tree).
On a matching unresolved alert the existing record is updated in place, otherwise the alert is
inserted. -/
def upsertAlert (existing : List Alert) (a : Alert) : List Alert :=
  if existing.any a.matchesKey then existing.map a.supersede else existing ++ [a]

/-- An HTTP request of `alertApi`: the method, the URL and the body sent. -/
structure AlertHttpRequest where
  method : String
  url : String
  body : Option Alert
deriving DecidableEq, Repr

/-- The constant `API_BASE_URL` of alertApi.js. -/
def alertApiBaseUrl : String := "/api/alerts"

/-- The request `alertApi.createAlert(alertData)` sends: `axios.post(API_BASE_URL, alertData)`. -/
def alertApi.createAlert (alertData : Alert) : AlertHttpRequest :=
  ⟨"POST", alertApiBaseUrl, some alertData⟩

/-- The request `alertApi.getAlerts()` sends: `axios.get(API_BASE_URL)`. -/
def alertApi.getAlerts : AlertHttpRequest :=
  ⟨"GET", alertApiBaseUrl, none⟩

/-- Modelled from the spec: the alert store after the server handled a request of `alertApi`
(the alert routes and controller are not in the source tree): a POST upserts its body, any other
request leaves the store as it is. -/
def handleAlertRequest (store : List Alert) (request : AlertHttpRequest) : List Alert :=
  match request.body with
  | some a => if request.method = "POST" then upsertAlert store a else store
  | none => store

/-- The keys of the unresolved alerts of a store, in store order. -/
def unresolvedKeys (store : List Alert) : List (String × String × String) :=
  (store.filter fun e => !e.resolved).map Alert.key

/-- The alerts the caregiver dashboard renders under "Recent Alerts": `alerts.slice(0, 10)`. -/
def caregiverRecentAlerts (alerts : List Alert) : List Alert :=
  alerts.take 10

/-- The alerts the doctor dashboard renders under "Clinical Alerts": `alerts.slice(0, 5)`. -/
def doctorClinicalAlerts (alerts : List Alert) : List Alert :=
  alerts.take 5

/-- A rendered list is ranked by severity when no alert comes before one of higher severity. -/
def rankedBySeverity (shown : List Alert) : Prop :=
  shown.Pairwise fun a b => b.severity.rank ≤ a.severity.rank

instance (shown : List Alert) : Decidable (rankedBySeverity shown) :=
  inferInstanceAs (Decidable (List.Pairwise _ shown))

/-- A low-stock alert of `alice`, severity low. -/
def lowAlert : Alert :=
  ⟨alice, "low-stock", "5f1d7f3e2b4c6a0012345601", .low, "Low stock", "Metformin is running low",
    1757894400000, false⟩

/-- An adherence alert of `alice`, severity critical. -/
def criticalAlert : Alert :=
  ⟨alice, "adherence", alice, .critical, "Missed doses", "Adherence fell below 50%",
    1757894460000, false⟩

/-! ## Backend: request bodies -/

/-- A value of a JSON request body. -/
inductive FieldValue where
  | str (s : String)
  | num (n : Int)
  | bool (b : Bool)
  | null
deriving DecidableEq, Repr

/-- A JSON object: its fields in order, each key once. -/
structure JsObject where
  fields : List (String × FieldValue)
deriving DecidableEq, Repr

/-- The property read `o[k]`: `none` when the object has no such field. -/
def JsObject.get (o : JsObject) (k : String) : Option FieldValue :=
  (o.fields.find? fun e => e.1 == k).map Prod.snd

/-- The object `{ ...o, k: v }`: the field `k` of `o` is overwritten where it stands, or added
at the end when `o` has none. -/
def JsObject.set (o : JsObject) (k : String) (v : FieldValue) : JsObject :=
  if o.fields.any (fun e => e.1 == k) then
    ⟨o.fields.map fun e => if e.1 == k then (k, v) else e⟩
  else ⟨o.fields ++ [(k, v)]⟩

/-- The object without its field `k`. -/
def JsObject.remove (o : JsObject) (k : String) : JsObject :=
  ⟨o.fields.filter fun e => e.1 != k⟩

/-! ## Backend: the appointment controller -/

/-- The authenticated user `req.user`: `id` is `req.user.id` (absent when `undefined`) and `_id`
is `req.user._id.toString()`. -/
structure AuthUser where
  id : Option String
  _id : String
deriving DecidableEq, Repr

/-- The body of an appointment request: `patientId` and `doctorId` (strings, or absent) and the
remaining fields, `rest`. -/
structure AppointmentBody where
  patientId : Option String
  doctorId : Option String
  rest : JsObject
deriving DecidableEq, Repr

/-- The request fields the appointment handlers read: `req.body`, `req.user` (absent when the
request carries no authenticated user) and `req.params.id`. -/
structure AppointmentRequest where
  body : AppointmentBody
  user : Option AuthUser
  paramsId : String
deriving DecidableEq, Repr

/-- The object `appointmentData` handed to `Appointment.create`: the two ObjectIds and the rest of
the body. -/
structure AppointmentData where
  patientId : String
  doctorId : String
  rest : JsObject
deriving DecidableEq, Repr

/-- How a handler ends: with a JSON answer (`res.status(status).json(...)` or `sendSuccess`), or by
throwing, which `catchAsync` passes on to the error middleware. -/
inductive HandlerOutcome where
  | json (status : Nat) (success : Bool) (message : String)
  | threw (error : String)
deriving DecidableEq, Repr

/-- The error thrown by reading a property of `undefined`. -/
def typeError : HandlerOutcome := .threw "TypeError"

/-- The check `mongoose.Types.ObjectId.isValid(id)` on a value that may be `undefined`, which is
never valid. -/
def isValidId (lib : ObjectIdLib) : Option String → Bool
  | some s => lib.isValid s
  | none => false

/-- The part "Handle placeholders" of `createAppointment`: the answer it ends with, or the
`patientId` and `doctorId` it leaves for validation. `patientId === 'current-user'` needs
`req.user` and a truthy `req.user.id` (else 401); `doctorId === 'default-doctor'` reads
`req.user.id` with no check. -/
def resolveCreatePlaceholders (req : AppointmentRequest) :
    Except HandlerOutcome (Option String × Option String) :=
  let patientStep : Except HandlerOutcome (Option String) :=
    if req.body.patientId = some "current-user" then
      match req.user with
      | none => .error (.json 401 false "Not authenticated")
      | some u =>
        if truthyString u.id then .ok u.id else .error (.json 401 false "Not authenticated")
    else .ok req.body.patientId
  match patientStep with
  | .error e => .error e
  | .ok patientId =>
    if req.body.doctorId = some "default-doctor" then
      match req.user with
      | none => .error typeError
      | some u => .ok (patientId, u.id)
    else .ok (patientId, req.body.doctorId)

/-- The handler `createAppointment` of appointmentController.js: how it ends and the objects it
handed to `Appointment.create`. -/
def createAppointment (lib : ObjectIdLib) (req : AppointmentRequest) :
    HandlerOutcome × List AppointmentData :=
  match resolveCreatePlaceholders req with
  | .error e => (e, [])
  | .ok (patientId, doctorId) =>
    if isValidId lib patientId = false then (.json 400 false "Invalid patientId", [])
    else if isValidId lib doctorId = false then (.json 400 false "Invalid doctorId", [])
    else
      (.json 201 true "Appointment created successfully",
        [⟨lib.objectId (patientId.getD ""), lib.objectId (doctorId.getD ""), req.body.rest⟩])

/-- The value a field of `updateData` has after the part "Handle placeholders" of
`updateAppointment`, for the user `u`: `'current-user'` becomes
`req.user.id || req.user._id.toString()`. -/
def AuthUser.resolve (u : AuthUser) (field : Option String) : Option String :=
  if field = some "current-user" then some (orElse u.id u._id) else field

/-- One placeholder step of `updateAppointment`; reading `req.user.id` without a user throws. -/
def replaceCurrentUser (user : Option AuthUser) (field : Option String) :
    Except HandlerOutcome (Option String) :=
  if field = some "current-user" then
    match user with
    | none => .error typeError
    | some u => .ok (u.resolve field)
  else .ok field

/-- One step of "Validate and convert IDs" of `updateAppointment`: a falsy field is left as it is,
a truthy one must be valid and becomes an ObjectId; `none` stands for the 400 answer. -/
def validateAndConvert (lib : ObjectIdLib) (field : Option String) : Option (Option String) :=
  match field with
  | some s =>
    if truthyString (some s) then
      if lib.isValid s then some (some (lib.objectId s)) else none
    else some (some s)
  | none => some none

/-- The call `Appointment.findByIdAndUpdate(id, updateData, ...)` of the appointment model, which
is not in the source tree: the updated appointment, or `none` (`null`) when there is none. -/
structure AppointmentModel where
  findByIdAndUpdate : String → AppointmentBody → Option AppointmentData

/-- The handler `updateAppointment` of appointmentController.js: how it ends and the
`findByIdAndUpdate` calls it made (the id and `updateData`). -/
def updateAppointment (lib : ObjectIdLib) (model : AppointmentModel) (req : AppointmentRequest) :
    HandlerOutcome × List (String × AppointmentBody) :=
  match replaceCurrentUser req.user req.body.patientId with
  | .error e => (e, [])
  | .ok patientId =>
    match replaceCurrentUser req.user req.body.doctorId with
    | .error e => (e, [])
    | .ok doctorId =>
      match validateAndConvert lib patientId with
      | none => (.json 400 false "Invalid patientId", [])
      | some patientId =>
        match validateAndConvert lib doctorId with
        | none => (.json 400 false "Invalid doctorId", [])
        | some doctorId =>
          let updateData : AppointmentBody := ⟨patientId, doctorId, req.body.rest⟩
          match model.findByIdAndUpdate req.paramsId updateData with
          | none => (.json 404 false "Appointment not found", [(req.paramsId, updateData)])
          | some _ =>
            (.json 200 true "Appointment updated successfully", [(req.paramsId, updateData)])

/-- The authenticated user of the worked examples: `alice`. -/
def aliceUser : AuthUser := ⟨some alice, alice⟩

/-- The other fields of the example appointment bodies. -/
def exampleRest : JsObject := ⟨[("reason", .str "check-up"), ("durationMinutes", .num 30)]⟩

/-- An appointment model in which every id is found. -/
def allFoundModel : AppointmentModel where
  findByIdAndUpdate := fun _ data => some ⟨data.patientId.getD "", data.doctorId.getD "", data.rest⟩

/-- A request with both placeholders, sent by `alice`. -/
def placeholderRequest : AppointmentRequest :=
  ⟨⟨some "current-user", some "default-doctor", exampleRest⟩, some aliceUser,
    "5f1d7f3e2b4c6a0012345609"⟩

/-- A request without an authenticated user whose `doctorId` is the placeholder and whose
`patientId` is no object id. -/
def unguardedRequest : AppointmentRequest :=
  ⟨⟨some "not-an-id", some "default-doctor", exampleRest⟩, none, "5f1d7f3e2b4c6a0012345609"⟩

/-! ## Backend: the user controller -/

/-- A stored user document: its `_id` and its other fields (`models/User.js` is not in the source
tree; the handler reads nothing of a user but excludes `password` and `__v`). -/
structure UserDoc where
  _id : String
  fields : JsObject
deriving DecidableEq, Repr

/-- The test `userId.match(/^[0-9a-fA-F]{24}$/)`: exactly 24 characters, each a hex digit. -/
def isObjectIdHex (userId : String) : Bool :=
  userId.data.length == 24 && userId.data.all isHexChar

/-- The hexadecimal digits, both cases. -/
def hexDigits : List Char := "0123456789abcdefABCDEF".data

/-- The projection `.select('-password -__v')`. -/
def selectUser (user : UserDoc) : UserDoc :=
  ⟨user._id, (user.fields.remove "password").remove "__v"⟩

/-- How `getUserById` ends: `next(new AppError(message, statusCode))`, or the JSON answer with
the user (its `timestamp` field, the time of the answer, is left out). -/
inductive UserOutcome where
  | appError (message : String) (statusCode : Nat)
  | json (status : Nat) (success : Bool) (message : String) (user : UserDoc)
deriving DecidableEq, Repr

/-- The handler `getUserById` of userController.js on `req.params.id`: how it ends and the ids it
looked up with `User.findById`. A lookup casts the id to an ObjectId and finds the first user
with that `_id`. -/
def getUserById (lib : ObjectIdLib) (store : List UserDoc) (paramsId : Option String) :
    UserOutcome × List String :=
  match paramsId with
  | none => (.appError "Invalid user ID" 400, [])
  | some userId =>
    if userId = "" || !isObjectIdHex userId then (.appError "Invalid user ID" 400, [])
    else
      match store.find? fun user => user._id == lib.objectId userId with
      | none => (.appError "User not found" 404, [userId])
      | some user => (.json 200 true "User retrieved successfully" (selectUser user), [userId])

/-- A stored user: `alice`, with a password hash. -/
def aliceDoc : UserDoc :=
  ⟨alice, ⟨[("name", .str "Alice"), ("password", .str "hash"), ("__v", .num 0)]⟩⟩

/-! ## Backend: creating a medicine -/

/-- The answer of `createMedicine` and the objects it handed to `Medicine.create`. -/
structure CreateMedicineResult where
  status : Nat
  message : String
  created : List JsObject
deriving DecidableEq, Repr

/-- The handler `createMedicine` of medicineController.js on the body `req.body`:
`medicineData` is `{ ...req.body, userId: req.params.userId || req.user._id }`, handed to
`Medicine.create`, and the answer is 201. -/
def createMedicine (body : JsObject) (req : MedicineRequest) : CreateMedicineResult :=
  let medicineData := body.set "userId" (.str (requestedUserId req))
  ⟨201, "Medicine added successfully", [medicineData]⟩

/-- A medicine body that names `bob` as the owner. -/
def bodyForBob : JsObject :=
  ⟨[("name", .str "Metformin"), ("userId", .str bob), ("stock", .num 30)]⟩

/-- The same medicine body without an owner. -/
def bodyNoOwner : JsObject :=
  ⟨[("name", .str "Metformin"), ("stock", .num 30)]⟩

/-! ## Frontend: the trend charts of the Reports page -/

/-- A point of the blood-pressure chart. -/
structure BpPoint where
  date : String
  systolic : JsNum
  diastolic : JsNum
deriving DecidableEq

/-- A point of the blood-sugar chart. -/
structure SugarPoint where
  date : String
  value : JsNum
deriving DecidableEq

/-- The value `bpTrendData` of Reports.jsx: the trends whose systolic and diastolic are neither
`null` nor `NaN`, as chart points. -/
def bpTrendData (healthTrends : List Trend) : List BpPoint :=
  (healthTrends.filter fun record =>
      record.bloodPressure.systolic != .null && !record.bloodPressure.systolic.isNaN &&
        record.bloodPressure.diastolic != .null && !record.bloodPressure.diastolic.isNaN).map
    fun record => ⟨record.date, record.bloodPressure.systolic, record.bloodPressure.diastolic⟩

/-- The value `sugarTrendData` of Reports.jsx: the trends whose blood-sugar value is neither
`null` nor `NaN`, as chart points. -/
def sugarTrendData (healthTrends : List Trend) : List SugarPoint :=
  (healthTrends.filter fun record =>
      record.bloodSugar.value != .null && !record.bloodSugar.value.isNaN).map
    fun record => ⟨record.date, record.bloodSugar.value⟩

/-- A dated reading with a blood pressure and a `null` blood-sugar value. -/
def nullSugarReading : HealthReading := ⟨some "20250917", some ⟨.num 125, .num 82⟩, some ⟨.null⟩⟩

/-! ## Frontend: the doctor dashboard metrics -/

/-- The value of an arithmetic operation: a number, `NaN`, or an infinity with its sign. A number
is held as the rational it denotes; the two zeros are not told apart. -/
inductive JsResult where
  | num (q : ℚ)
  | nan
  | infinity (negative : Bool)
deriving DecidableEq

/-- Rounding of a rational to the nearest integer, ties to the even one. -/
def roundHalfEven (x : ℚ) : ℤ :=
  if x - ⌊x⌋ < 1 / 2 then ⌊x⌋
  else if 1 / 2 < x - ⌊x⌋ then ⌊x⌋ + 1
  else if ⌊x⌋ % 2 = 0 then ⌊x⌋ else ⌊x⌋ + 1

/-- The exponent of the spacing of the binary64 numbers around `q`: 52 below the binary exponent
of `q`, which is at least -1022 (the subnormal range). -/
def ulpExponent (q : ℚ) : ℤ :=
  max (Int.log 2 |q|) (-1022) - 52

/-- The IEEE 754 binary64 ("double") value a JavaScript operation returns for the exact result
`q`: the nearest multiple of the spacing, ties to even, and an infinity when that is `2^1024` or
more in magnitude. -/
def toDouble (q : ℚ) : JsResult :=
  let r : ℚ := (roundHalfEven (q / 2 ^ ulpExponent q) : ℚ) * 2 ^ ulpExponent q
  if (2 : ℚ) ^ (1024 : ℕ) ≤ |r| then .infinity (decide (q < 0)) else .num r

/-- The sum `sum + y` of an accumulated value and a numeric field, both doubles: the double nearest
to the exact sum, `NaN` when either operand is `NaN` (or converts to it). -/
def JsResult.add (sum : JsResult) (y : JsNum) : JsResult :=
  match sum, y.toNumber with
  | .num a, some b => toDouble (a + b)
  | .infinity negative, some _ => .infinity negative
  | _, _ => .nan

/-- The quotient `x / n` of a value by a count: the double nearest to the exact quotient; `0 / 0`
is `NaN`, another number over 0 is an infinity. -/
def JsResult.divCount (x : JsResult) (n : Nat) : JsResult :=
  match x with
  | .num q =>
    if n = 0 then (if q = 0 then .nan else .infinity (decide (q < 0)))
    else toDouble (q / (n : ℚ))
  | .nan => .nan
  | .infinity negative => .infinity negative

/-- The function `Math.round` on the value of a division: the nearest integer, halves up; `NaN`
and the infinities are left as they are. -/
def JsResult.round : JsResult → JsResult
  | .num q => .num (⌊q + 1 / 2⌋ : Int)
  | .nan => .nan
  | .infinity negative => .infinity negative

/-- The value `avgAdherence` of the doctor dashboard:
`Math.round(patientOverview.reduce((sum, p) => sum + p.adherence, 0) / totalPatients)`, with
`totalPatients = patientOverview.length`, in double arithmetic. -/
def avgAdherence (patientOverview : List PatientOverview) : JsResult :=
  let totalPatients := patientOverview.length
  ((patientOverview.foldl (fun (sum : JsResult) (p : PatientOverview) => sum.add p.adherence)
    (JsResult.num 0)).divCount totalPatients).round

/-- The numeric value of a patient's adherence (0 when it is no number). -/
def PatientOverview.adherenceValue (p : PatientOverview) : ℚ :=
  p.adherence.toNumber.getD 0

/-- The arithmetic mean of the adherence values of a patient list. -/
def meanAdherence (patientOverview : List PatientOverview) : ℚ :=
  (patientOverview.map PatientOverview.adherenceValue).sum / (patientOverview.length : ℚ)

/-- The state of the DoctorDashboard component. -/
structure DoctorState where
  alerts : List Alert
  patientOverview : List PatientOverview
  loading : Bool
deriving DecidableEq

/-- The initial state: `useState([])`, `useState([])`, `useState(true)`. -/
def DoctorState.initial : DoctorState := ⟨[], [], true⟩

/-- The patient list `fetchDashboardData` of the doctor dashboard sets after the alerts arrived
(the literal of the source, with the fields the metrics read). -/
def doctorPatients : List PatientOverview :=
  [⟨"patient1", "medium", .num 78⟩, ⟨"patient2", "low", .num 92⟩, ⟨"patient3", "low", .num 95⟩]

/-- Two patients whose adherence values are `2^53` and 1. -/
def hugePatients : List PatientOverview :=
  [⟨"patient1", "low", .num 9007199254740992⟩, ⟨"patient2", "low", .num 1⟩]

/-- The function `fetchDashboardData` of DoctorDashboard.jsx on the answer of
`alertApi.getAlerts()`, whose body is `alertsRes.data.alerts` (absent when falsy): a rejected
request throws into the `catch` before the patient list is set; `finally` turns `loading` off. -/
def doctorFetchDashboardData (alertsRes : Answer (Option (List Alert))) (s : DoctorState) :
    DoctorState :=
  match alertsRes with
  | .resolved alerts =>
    { s with alerts := alerts.getD [], patientOverview := doctorPatients, loading := false }
  | .rejected => { s with loading := false }

/-! ## Theorems -/

/-! ### Shared lemmas about the medicine handlers -/

theorem getLowStockMedicines_valid (lib : ObjectIdLib) (store : List Medicine)
    (req : MedicineRequest) (hvalid : lib.isValid (requestedUserId req) = true) :
    getLowStockMedicines lib store req =
      (⟨200, true, "Low stock medicines retrieved",
          some (Medicine.find store ⟨lib.objectId (requestedUserId req), true, 7⟩)⟩,
        [⟨lib.objectId (requestedUserId req), true, 7⟩]) := by
  simp [getLowStockMedicines, hvalid]

theorem getLowStockMedicines_invalid (lib : ObjectIdLib) (store : List Medicine)
    (req : MedicineRequest) (hinvalid : lib.isValid (requestedUserId req) = false) :
    getLowStockMedicines lib store req = (⟨400, false, "Invalid userId", none⟩, []) := by
  simp [getLowStockMedicines, hinvalid]

theorem mem_find_iff (store : List Medicine) (q : MedicineQuery) (m : Medicine) :
    m ∈ Medicine.find store q ↔
      m ∈ store ∧ m.userId = q.userId ∧ m.isActive = q.isActive ∧ m.stock ≤ q.stockLte := by
  simp [Medicine.find, MedicineQuery.matches, List.mem_filter, and_assoc]

theorem mem_getLowStockMedicines_iff (lib : ObjectIdLib) (store : List Medicine)
    (req : MedicineRequest) (m : Medicine) :
    m ∈ (getLowStockMedicines lib store req).1.medicines ↔
      lib.isValid (requestedUserId req) = true ∧ m ∈ store ∧
        m.userId = lib.objectId (requestedUserId req) ∧ m.isActive = true ∧ m.stock ≤ 7 := by
  cases hvalid : lib.isValid (requestedUserId req)
  · simp [getLowStockMedicines_invalid lib store req hvalid, MedicineResponse.medicines]
  · simp [getLowStockMedicines_valid lib store req hvalid, MedicineResponse.medicines,
      mem_find_iff]

/-! ### C1: the low-stock query and the medicine's own threshold -/

/-- C1, as stated, fails on the code. For `alice`, a store holding an active medicine with stock 8
and own threshold 10 and an active medicine with stock 6 and own threshold 5: the specification's
`flagLowStock` (default 7) keeps the first and not the second, `getLowStockMedicines` returns the
second and not the first. -/
theorem getLowStockMedicines_own_threshold_counterexample :
    specFlagLowStock 7 [stock8own10, stock6own5] = [stock8own10] ∧
      (getLowStockMedicines hexIds [stock8own10, stock6own5] aliceRequest).1.medicines =
        [stock6own5] := by
  decide

/-- C1, amended: for every store and every request with a valid user id, `getLowStockMedicines`
returns exactly the stored medicines that belong to the requested patient, are active and have
stock at most the fixed cutoff 7; the medicine's own low-stock value plays no part, so rewriting
the own values of the whole store in any way leaves the same medicines (up to that rewriting)
in the answer. -/
theorem getLowStockMedicines_fixed_cutoff (lib : ObjectIdLib) (store : List Medicine)
    (req : MedicineRequest) (hvalid : lib.isValid (requestedUserId req) = true) :
    (∀ m, m ∈ (getLowStockMedicines lib store req).1.medicines ↔
        m ∈ store ∧ m.userId = lib.objectId (requestedUserId req) ∧ m.isActive = true ∧
          m.stock ≤ 7) ∧
    (∀ own : Medicine → Option Int,
        (getLowStockMedicines lib (store.map fun m => { m with lowStockAlert := own m })
            req).1.medicines =
          (getLowStockMedicines lib store req).1.medicines.map
            fun m => { m with lowStockAlert := own m }) := by
  refine ⟨fun m => ?_, fun own => ?_⟩
  · simp [mem_getLowStockMedicines_iff, hvalid]
  · simp only [getLowStockMedicines_valid _ _ _ hvalid, MedicineResponse.medicines,
      Option.getD_some, Medicine.find, List.filter_map]
    congr 1

/-- C1, amended, at a concrete input: the store of the counterexample. -/
theorem getLowStockMedicines_fixed_cutoff_witness :
    hexIds.isValid (requestedUserId aliceRequest) = true ∧
      stock8own10 ∉
        (getLowStockMedicines hexIds [stock8own10, stock6own5] aliceRequest).1.medicines :=
  ⟨by decide, fun h =>
    absurd (((getLowStockMedicines_fixed_cutoff hexIds _ aliceRequest (by decide)).1 _).1 h).2.2.2
      (by decide)⟩

/-! ### C2: the inclusive boundary at 7 -/

/-- C2: with the cutoff at 7, an active medicine of the requested patient that is in the store is
in the answer of `getLowStockMedicines` if and only if its stock is at most 7 (the boundary is
inclusive). -/
theorem getLowStockMedicines_boundary (lib : ObjectIdLib) (store : List Medicine)
    (req : MedicineRequest) (m : Medicine)
    (hvalid : lib.isValid (requestedUserId req) = true) (hstored : m ∈ store)
    (hactive : m.isActive = true) (howner : m.userId = lib.objectId (requestedUserId req)) :
    m ∈ (getLowStockMedicines lib store req).1.medicines ↔ m.stock ≤ 7 := by
  simp [mem_getLowStockMedicines_iff, hvalid, hstored, hactive, howner]

/-- C2 at concrete inputs: of three active medicines of `alice` with stock 5, 7 and 8, the first
two are returned and the third is not. -/
theorem getLowStockMedicines_boundary_witness :
    aliceMedicine "a5" 5 none ∈
        (getLowStockMedicines hexIds
          [aliceMedicine "a5" 5 none, aliceMedicine "a7" 7 none, aliceMedicine "a8" 8 none]
          aliceRequest).1.medicines ∧
      aliceMedicine "a7" 7 none ∈
        (getLowStockMedicines hexIds
          [aliceMedicine "a5" 5 none, aliceMedicine "a7" 7 none, aliceMedicine "a8" 8 none]
          aliceRequest).1.medicines ∧
      aliceMedicine "a8" 8 none ∉
        (getLowStockMedicines hexIds
          [aliceMedicine "a5" 5 none, aliceMedicine "a7" 7 none, aliceMedicine "a8" 8 none]
          aliceRequest).1.medicines :=
  ⟨(getLowStockMedicines_boundary hexIds _ aliceRequest _ (by decide) (by decide) (by decide)
      (by decide)).2 (by decide),
   (getLowStockMedicines_boundary hexIds _ aliceRequest _ (by decide) (by decide) (by decide)
      (by decide)).2 (by decide),
   fun h => absurd
     ((getLowStockMedicines_boundary hexIds _ aliceRequest _ (by decide) (by decide) (by decide)
        (by decide)).1 h) (by decide)⟩

/-! ### C3: deleting a medicine -/

theorem deleteMedicine_found (store : List Medicine) (req : MedicineRequest) (m : Medicine)
    (hfind : store.find? (fun x => x._id == req.paramsId) = some m) :
    deleteMedicine store req =
      (⟨200, true, "Medicine deleted successfully", none⟩,
        store.eraseP (fun x => x._id == req.paramsId)) := by
  simp [deleteMedicine, Medicine.findByIdAndDelete, hfind]

theorem deleteMedicine_missing (store : List Medicine) (req : MedicineRequest)
    (hfind : store.find? (fun x => x._id == req.paramsId) = none) :
    deleteMedicine store req = (⟨404, false, "Medicine not found", none⟩, store) := by
  simp [deleteMedicine, Medicine.findByIdAndDelete, hfind]

theorem eraseP_id_absent (id : String) (store : List Medicine)
    (hunique : (store.map fun m => m._id).Nodup) :
    ∀ x ∈ store.eraseP (fun m => m._id == id), x._id ≠ id := by
  induction store with
  | nil => simp
  | cons a l ih =>
    rw [List.map_cons, List.nodup_cons] at hunique
    by_cases ha : a._id = id
    · intro x hx
      have hx2 : x ∈ l := by simpa [List.eraseP_cons, ha] using hx
      intro hxid
      exact hunique.1 (List.mem_map.2 ⟨x, hx2, by rw [hxid, ha]⟩)
    · intro x hx
      have hx2 : x = a ∨ x ∈ l.eraseP (fun m => m._id == id) := by
        simpa [List.eraseP_cons, ha] using hx
      rcases hx2 with rfl | hx2
      · exact ha
      · exact ih hunique.2 x hx2

/-- C3, as stated, fails on the code: deleting the medicine `5f1d7f3e2b4c6a0012345601` from a
store of two medicines succeeds (200) and leaves a store in which no record has that id, so the
record is not kept with a cleared active flag. -/
theorem deleteMedicine_soft_delete_counterexample :
    (deleteMedicine [stock8own10, stock6own5] aliceRequest).1.status = 200 ∧
      (deleteMedicine [stock8own10, stock6own5] aliceRequest).2 = [stock6own5] ∧
      ¬ ∃ m ∈ (deleteMedicine [stock8own10, stock6own5] aliceRequest).2,
          m._id = aliceRequest.paramsId ∧ m.isActive = false := by
  decide

/-- C3, amended: deleting a medicine is a hard delete. Whenever `deleteMedicine` succeeds (200), a
stored record had the requested id, the store it leaves is the old store without the first record
of that id: one record shorter, every record of another id kept, no record added or changed; and
when ids are unique no record of that id remains. -/
theorem deleteMedicine_hard_delete (store : List Medicine) (req : MedicineRequest)
    (hok : (deleteMedicine store req).1.status = 200) :
    (∃ m ∈ store, m._id = req.paramsId) ∧
      (deleteMedicine store req).2.length + 1 = store.length ∧
      (deleteMedicine store req).2.Sublist store ∧
      (∀ x ∈ store, x._id ≠ req.paramsId → x ∈ (deleteMedicine store req).2) ∧
      ((store.map fun m => m._id).Nodup →
        ∀ x ∈ (deleteMedicine store req).2, x._id ≠ req.paramsId) := by
  cases hfind : store.find? (fun x => x._id == req.paramsId) with
  | none =>
    rw [deleteMedicine_missing store req hfind] at hok
    simp at hok
  | some m =>
    have hmem : m ∈ store := List.mem_of_find?_eq_some hfind
    have hid : m._id = req.paramsId := by
      have hp := List.find?_some (p := fun x : Medicine => x._id == req.paramsId) hfind
      simpa using hp
    rw [deleteMedicine_found store req m hfind]
    refine ⟨⟨m, hmem, hid⟩, ?_, List.eraseP_sublist _, ?_, eraseP_id_absent _ _⟩
    · have hlen := List.length_eraseP_of_mem (p := fun x : Medicine => x._id == req.paramsId)
        hmem (by simp [hid])
      have hpos : 0 < store.length := List.length_pos_of_mem hmem
      simp only [hlen]
      omega
    · intro x hx hne
      exact (List.mem_eraseP_of_neg (by simpa using hne)).2 hx

/-- C3, amended, at a concrete input: the store of the counterexample. -/
theorem deleteMedicine_hard_delete_witness :
    (deleteMedicine [stock8own10, stock6own5] aliceRequest).1.status = 200 ∧
      (deleteMedicine [stock8own10, stock6own5] aliceRequest).2.length + 1 = 2 :=
  ⟨by decide, (deleteMedicine_hard_delete [stock8own10, stock6own5] aliceRequest (by decide)).2.1⟩

/-! ### C9: the scope of the low-stock query -/

/-- C9: every medicine `getLowStockMedicines` returns is a stored, active medicine of the requested
patient, the requested patient being the route's `userId` when present (non-empty) and the
authenticated user otherwise; and when that user id is not a valid object id the handler answers
400 'Invalid userId' and issues no query. -/
theorem getLowStockMedicines_scope (lib : ObjectIdLib) (store : List Medicine)
    (req : MedicineRequest) :
    (∀ m ∈ (getLowStockMedicines lib store req).1.medicines,
        m ∈ store ∧ m.isActive = true ∧ m.userId = lib.objectId (requestedUserId req)) ∧
      (∀ u, req.paramsUserId = some u → u ≠ "" → requestedUserId req = u) ∧
      (req.paramsUserId = none → requestedUserId req = req.user_id) ∧
      (lib.isValid (requestedUserId req) = false →
        getLowStockMedicines lib store req = (⟨400, false, "Invalid userId", none⟩, [])) := by
  refine ⟨fun m hm => ?_, fun u hu hne => ?_, fun hnone => ?_, fun hinvalid => ?_⟩
  · have h := (mem_getLowStockMedicines_iff lib store req m).1 hm
    exact ⟨h.2.1, h.2.2.2.1, h.2.2.1⟩
  · simp [requestedUserId, orElse, hu, hne]
  · simp [requestedUserId, orElse, hnone]
  · exact getLowStockMedicines_invalid lib store req hinvalid

/-- C9 at concrete inputs: with stock 0 everywhere, an inactive medicine of `alice` and a medicine
of `bob` are not returned to `alice`, and the user id `nope` is answered 400 with no query. -/
theorem getLowStockMedicines_scope_example :
    (getLowStockMedicines hexIds
        [⟨"m1", alice, "Aspirin", 0, none, false⟩, ⟨"m2", bob, "Aspirin", 0, none, true⟩,
          aliceMedicine "m3" 0 none] aliceRequest).1.medicines = [aliceMedicine "m3" 0 none] ∧
      getLowStockMedicines hexIds [aliceMedicine "m3" 0 none] ⟨some "nope", "m3", alice⟩ =
        (⟨400, false, "Invalid userId", none⟩, []) := by
  decide

/-! ### C4: which readings the trend normalisation keeps -/

theorem sortByDate_perm {α : Type} (host : Host) (date : α → String) (l : List α) :
    (sortByDate host date l).Perm l :=
  List.perm_insertionSort _ l

theorem length_normalizedTrends (host : Host) (rawTrends : List HealthReading) :
    (normalizedTrends host rawTrends).length = (rawTrends.filter trendFilter).length := by
  rw [normalizedTrends, (sortByDate_perm host _ _).length_eq, List.length_map]

theorem trendFilter_iff (r : HealthReading) :
    trendFilter r = true ↔
      truthyString r.date = true ∧ r.systolic ≠ .undefined ∧ r.diastolic ≠ .undefined ∧
        r.sugar ≠ .undefined := by
  simp [trendFilter, and_assoc]

/-- C4, as stated, fails on the code: a dated reading that reports blood pressure only (120/80, no
blood sugar) reports a non-empty subset of the vitals and is dropped, the normalised series of the
list holding just that reading being empty. -/
theorem normalizedTrends_bp_only_counterexample :
    truthyString bpOnlyReading.date = true ∧ bpOnlyReading.reportsSomeVital = true ∧
      normalizedTrends exampleHost [bpOnlyReading] = [] := by
  decide

/-- C4, amended: the normalisation keeps a reading exactly when it is dated and all three of
systolic, diastolic and blood-sugar value are defined. The normalised series has one record for
each such reading (and no other), the normalised form of every such reading is in it, and a
reading that lacks the date or any one of the three vitals contributes nothing. -/
theorem normalizedTrends_keeps_complete_readings (host : Host) (rawTrends : List HealthReading) :
    (normalizedTrends host rawTrends).length =
        rawTrends.countP (fun r =>
          truthyString r.date && decide (r.systolic ≠ .undefined) &&
            decide (r.diastolic ≠ .undefined) && decide (r.sugar ≠ .undefined)) ∧
      (∀ r ∈ rawTrends,
        truthyString r.date = true → r.systolic ≠ .undefined → r.diastolic ≠ .undefined →
          r.sugar ≠ .undefined → normalizeRecord host r ∈ normalizedTrends host rawTrends) ∧
      (∀ t ∈ normalizedTrends host rawTrends, ∃ r ∈ rawTrends,
        t = normalizeRecord host r ∧ truthyString r.date = true ∧ r.systolic ≠ .undefined ∧
          r.diastolic ≠ .undefined ∧ r.sugar ≠ .undefined) ∧
      ((∀ r ∈ rawTrends,
          truthyString r.date = false ∨ r.systolic = .undefined ∨ r.diastolic = .undefined ∨
            r.sugar = .undefined) →
        normalizedTrends host rawTrends = []) := by
  have hmem : ∀ t, t ∈ normalizedTrends host rawTrends ↔
      t ∈ (rawTrends.filter trendFilter).map (normalizeRecord host) := fun t =>
    (sortByDate_perm host _ _).mem_iff
  refine ⟨?_, ?_, ?_, ?_⟩
  · rw [length_normalizedTrends, ← List.countP_eq_length_filter]
    congr 1
    funext r
    simp [trendFilter, bne, BEq.beq]
  · intro r hr hd hs hdi hsu
    rw [hmem]
    exact List.mem_map.2 ⟨r, List.mem_filter.2 ⟨hr, (trendFilter_iff r).2 ⟨hd, hs, hdi, hsu⟩⟩, rfl⟩
  · intro t ht
    rw [hmem] at ht
    obtain ⟨r, hr, rfl⟩ := List.mem_map.1 ht
    obtain ⟨hr1, hr2⟩ := List.mem_filter.1 hr
    exact ⟨r, hr1, rfl, (trendFilter_iff r).1 hr2⟩
  · intro hall
    apply List.eq_nil_of_length_eq_zero
    rw [length_normalizedTrends, List.length_eq_zero, List.filter_eq_nil_iff]
    intro r hr hkeep
    have h := (trendFilter_iff r).1 hkeep
    rcases hall r hr with h1 | h1 | h1 | h1
    · rw [h.1] at h1; exact absurd h1 (by decide)
    · exact h.2.1 h1
    · exact h.2.2.1 h1
    · exact h.2.2.2 h1

/-- C4, amended, at a concrete input: of a blood-pressure-only reading and a complete reading,
only the complete one reaches the normalised series. -/
theorem normalizedTrends_example :
    normalizedTrends exampleHost [bpOnlyReading, fullReading] =
      [normalizeRecord exampleHost fullReading] := by
  decide

/-! ### C5: absent sections of the adherence report -/

theorem round_zero : Math.round (.num 0) = some 0 := by
  simp only [Math.round, JsNum.toNumber, Option.map_some']
  norm_num

theorem orZero_undefined : JsNum.orZero .undefined = .num 0 := rfl

theorem orZero_zero : JsNum.orZero (.num 0) = .num 0 := by
  simp [JsNum.orZero, JsNum.truthy]

theorem percent_zero : showRounded (some 0) ++ "%" = "0%" := by
  decide

/-- C5, as stated, fails on the code: for a report with no streak object and no
`overall.totalIntakes`, the page shows cards, and the Current Streak, Best Streak and Total Doses
cards present the value 0. -/
theorem summarySection_absent_counterexample :
    partialReport.streak = none ∧
      (partialReport.overall.map fun o => o.totalIntakes) = some .undefined ∧
      ∃ c, summarySection (some partialReport) = .cards c ∧
        c.currentStreak = .num 0 ∧ c.bestStreak = .num 0 ∧ c.totalDoses = .num 0 :=
  ⟨rfl, rfl, _, rfl, rfl, rfl, rfl⟩

/-- C5, amended: an absent section is presented as zero. For every adherence report that has an
`overall` object, the page shows the four cards (not the "no data" text); when the streak object
is absent the Current Streak and Best Streak cards show 0, when `overall.totalIntakes` is absent
the Total Doses card shows 0, and when `overall.adherenceRate` is absent Overall Adherence shows
'0%'. The "no data" text is shown when the whole report is absent. -/
theorem summarySection_absent_is_zero (d : AdherenceData) (o : Overall)
    (hoverall : d.overall = some o) :
    (∃ c, summarySection (some d) = .cards c ∧
        (d.streak = none → c.currentStreak = .num 0 ∧ c.bestStreak = .num 0) ∧
        (o.totalIntakes = .undefined → c.totalDoses = .num 0) ∧
        (o.adherenceRate = .undefined → c.overallAdherence = "0%")) ∧
      summarySection none = .noData := by
  refine ⟨⟨summaryCards d o, by simp only [summarySection, hoverall], ?_, ?_, ?_⟩, rfl⟩
  · intro hs
    simp only [summaryCards, AdherenceData.currentStreak, AdherenceData.longestStreak, hs]
    exact ⟨rfl, rfl⟩
  · intro ht
    simp only [summaryCards, ht]
    rfl
  · intro hr
    simp only [summaryCards, hr, orZero_undefined, round_zero]
    exact percent_zero

/-- C5, amended, at a concrete input: the report of the counterexample. -/
theorem summarySection_absent_is_zero_witness :
    partialReport.overall = some ⟨.num 80, .undefined⟩ ∧
      ∃ c, summarySection (some partialReport) = .cards c ∧ c.totalDoses = .num 0 :=
  ⟨rfl,
    match (summarySection_absent_is_zero partialReport ⟨.num 80, .undefined⟩ rfl).1 with
    | ⟨c, hc, _, ht, _⟩ => ⟨c, hc, ht rfl⟩⟩

/-! ### C6: a failing health-trends request -/

/-- C6, as stated, fails on the code: in a first load (initial state) where the adherence-stats
request succeeds and the health-trends request fails, the page is left with no adherence data. -/
theorem fetchReportData_partial_counterexample :
    (healthDownApi.getAdherenceStats none 30).isResolved = true ∧
      (healthDownApi.getHealthTrends none 30).isResolved = false ∧
      (fetchReportData exampleHost healthDownApi 1757894400000 1757894400007
        ReportsState.initial).1.adherenceData = none := by
  decide

/-- C6, amended: a failure of the health-trends request fails the whole load. For every run of
`fetchReportData` in which the health-trends request fails, whatever the adherence-stats request
answers, nothing is stored: the adherence data and the trends keep the values they had, only
`loading` is turned off, and the daily-adherence request is not issued. -/
theorem fetchReportData_health_failure (host : Host) (api : ReportsApi) (now1 now2 : Int)
    (s : ReportsState) (hfail : api.getHealthTrends none s.timeRange = .rejected) :
    fetchReportData host api now1 now2 s =
      ({ s with loading := false },
        [.getAdherenceStats none s.timeRange, .getHealthTrends none s.timeRange]) := by
  unfold fetchReportData
  rw [hfail]
  cases api.getAdherenceStats none s.timeRange <;> rfl

/-- C6, amended, at a concrete input: the run of the counterexample. -/
theorem fetchReportData_health_failure_witness :
    healthDownApi.getHealthTrends none ReportsState.initial.timeRange = .rejected ∧
      (fetchReportData exampleHost healthDownApi 1757894400000 1757894400007
        ReportsState.initial).1 = ⟨none, [], 30, false⟩ :=
  ⟨rfl, by
    rw [fetchReportData_health_failure exampleHost healthDownApi _ _ ReportsState.initial rfl]
    rfl⟩

/-- The other failure: when the first two requests succeed and the daily-adherence request fails,
the adherence summary and the trends already stored are kept. -/
theorem fetchReportData_daily_failure (host : Host) (api : ReportsApi) (now1 now2 : Int)
    (s : ReportsState) (a : AdherenceRes) (h : HealthRes)
    (ha : api.getAdherenceStats none s.timeRange = .resolved a)
    (hh : api.getHealthTrends none s.timeRange = .resolved h)
    (hd : api.getDailyAdherenceStats none (now1 - (s.timeRange : Int) * 24 * 60 * 60 * 1000) now2 =
      .rejected) :
    (fetchReportData host api now1 now2 s).1 =
      ⟨a.data, normalizedTrends host (h.trends.getD []), s.timeRange, false⟩ := by
  unfold fetchReportData
  simp only [ha, hh, hd]

/-! ### C7: how the requests express their time range -/

/-- C7, as stated, fails on the code: in a first load with all requests succeeding (time range
30), the three requests issued are the adherence-stats and health-trends requests, each carrying
the day count 30 and no absolute window, and the daily-adherence request with its window. -/
theorem fetchReportData_day_count_counterexample :
    (fetchReportData exampleHost allUpApi 1757894400000 1757894400007 ReportsState.initial).2 =
        [.getAdherenceStats none 30, .getHealthTrends none 30,
          .getDailyAdherenceStats none 1755302400000 1757894400007] ∧
      ¬ ∀ r ∈ (fetchReportData exampleHost allUpApi 1757894400000 1757894400007
          ReportsState.initial).2, r.hasAbsoluteWindow = true ∧ r.dayCount = none := by
  decide

/-- C7, amended: only the daily-adherence request expresses its time range as an absolute window.
Every run of `fetchReportData` issues the adherence-stats request and the health-trends request,
each carrying the relative day count `timeRange` and no window; the only other request it may
issue, when both of these succeed, is the daily-adherence request, which carries the absolute
window from `now1 - timeRange` days to `now2` and no day count. -/
theorem fetchReportData_requests (host : Host) (api : ReportsApi) (now1 now2 : Int)
    (s : ReportsState) :
    (fetchReportData host api now1 now2 s).2 =
        [.getAdherenceStats none s.timeRange, .getHealthTrends none s.timeRange] ++
          (if (api.getAdherenceStats none s.timeRange).isResolved &&
              (api.getHealthTrends none s.timeRange).isResolved then
            [.getDailyAdherenceStats none (now1 - (s.timeRange : Int) * 86400000) now2]
          else []) ∧
      (ApiRequest.getAdherenceStats none s.timeRange).dayCount = some s.timeRange ∧
      (ApiRequest.getHealthTrends none s.timeRange).dayCount = some s.timeRange ∧
      (ApiRequest.getAdherenceStats none s.timeRange).hasAbsoluteWindow = false ∧
      (ApiRequest.getHealthTrends none s.timeRange).hasAbsoluteWindow = false ∧
      (ApiRequest.getDailyAdherenceStats none (now1 - (s.timeRange : Int) * 86400000)
        now2).hasAbsoluteWindow = true ∧
      (ApiRequest.getDailyAdherenceStats none (now1 - (s.timeRange : Int) * 86400000)
        now2).dayCount = none := by
  refine ⟨?_, rfl, rfl, rfl, rfl, rfl, rfl⟩
  have hms : (s.timeRange : Int) * 24 * 60 * 60 * 1000 = (s.timeRange : Int) * 86400000 := by
    ring
  unfold fetchReportData
  cases ha : api.getAdherenceStats none s.timeRange with
  | rejected => simp [Answer.isResolved]
  | resolved a =>
    cases hh : api.getHealthTrends none s.timeRange with
    | rejected => simp [Answer.isResolved]
    | resolved h =>
      simp only [hms]
      cases api.getDailyAdherenceStats none (now1 - (s.timeRange : Int) * 86400000) now2 <;>
        simp [Answer.isResolved]

/-! ### C8: the adherence bands -/

/-- C8, as stated, fails on the code: a rate of 87 raises no concern by the breakpoints 70 and 85,
but Reports shows "Good Progress" and the caregiver dashboard colours it yellow (the middle
band); and a rate of 82, in the middle band by those breakpoints, is not among the doctor
dashboard's high-risk patients while 79 is. -/
theorem adherence_bands_counterexample :
    specBand 87 = .noConcern ∧
      AdherenceInsights (.num 87) = [.goodProgress] ∧
      insightBand (AdherenceInsights (.num 87)) = .middle ∧
      colourBand (caregiverAdherenceColour (.num 87)) = .middle ∧
      specBand 82 = .middle ∧ specBand 79 = .middle ∧
      highRiskPatients [⟨"patient1", "medium", .num 82⟩, ⟨"patient2", "medium", .num 79⟩] =
        [⟨"patient2", "medium", .num 79⟩] := by
  refine ⟨?_, ?_, ?_, ?_, ?_, ?_, ?_⟩
  · simp [specBand]; norm_num
  · simp [AdherenceInsights, JsNum.ge, JsNum.lt, JsNum.toNumber]; norm_num
  · simp [AdherenceInsights, insightBand, JsNum.ge, JsNum.lt, JsNum.toNumber]; norm_num
  · simp [colourBand, caregiverAdherenceColour, JsNum.ge, JsNum.toNumber]; norm_num
  · simp [specBand]; norm_num
  · simp [specBand]; norm_num
  · simp [highRiskPatients, List.filter_cons, JsNum.lt, JsNum.toNumber]; norm_num

/-- C8, amended: Reports and the caregiver dashboard band adherence at 70 and 90, and the doctor
dashboard uses the single breakpoint 80. For every rate `r`: `AdherenceInsights` shows exactly
"Needs Attention" when `r < 70`, exactly "Good Progress" when `70 <= r < 90` and exactly
"Excellent Adherence!" when `r >= 90`; the caregiver colour is red, yellow, green on the same three
ranges; and a patient whose risk level is not 'high' is among the doctor dashboard's high-risk
patients exactly when `r < 80`. -/
theorem adherence_bands (r : ℚ) :
    AdherenceInsights (.num r) =
        (if r < 70 then [.needsAttention] else if r < 90 then [.goodProgress]
          else [.excellentAdherence]) ∧
      caregiverAdherenceColour (.num r) =
        (if r < 70 then .red else if r < 90 then .yellow else .green) ∧
      ∀ (id riskLevel : String), riskLevel ≠ "high" →
        (highRiskPatients [⟨id, riskLevel, .num r⟩] = [⟨id, riskLevel, .num r⟩] ↔ r < 80) := by
  refine ⟨?_, ?_, ?_⟩
  · simp only [AdherenceInsights, JsNum.ge, JsNum.lt, JsNum.toNumber]
    by_cases h70 : r < 70
    · have h90 : r < 90 := by linarith
      have n90 : ¬ (90 : ℚ) ≤ r := by linarith
      have n70 : ¬ (70 : ℚ) ≤ r := by linarith
      simp [h70, h90, n90, n70]
    · by_cases h90 : r < 90
      · have n90 : ¬ (90 : ℚ) ≤ r := by linarith
        have g70 : (70 : ℚ) ≤ r := by linarith
        simp [h70, h90, n90, g70]
      · have g90 : (90 : ℚ) ≤ r := by linarith
        have g70 : (70 : ℚ) ≤ r := by linarith
        simp [h70, h90, g90, g70]
  · simp only [caregiverAdherenceColour, JsNum.ge, JsNum.toNumber]
    by_cases h70 : r < 70
    · have n90 : ¬ (90 : ℚ) ≤ r := by linarith
      have n70 : ¬ (70 : ℚ) ≤ r := by linarith
      simp [h70, n90, n70]
    · by_cases h90 : r < 90
      · have n90 : ¬ (90 : ℚ) ≤ r := by linarith
        have g70 : (70 : ℚ) ≤ r := by linarith
        simp [h70, h90, n90, g70]
      · have g90 : (90 : ℚ) ≤ r := by linarith
        simp [h70, h90, g90]
  · intro id riskLevel hrisk
    simp [highRiskPatients, JsNum.lt, JsNum.toNumber, hrisk, List.filter_cons]

/-! ### C10: a report with no intake events -/

/-- C10: for a report with `overall.totalIntakes = 0`, `overall.adherenceRate = 0` and an empty
daily series (whatever its streak section), the page computes its view without error: the summary
section shows the cards, Overall Adherence is '0%', Total Doses is 0, the adherence chart series
is empty, and the insights (computed from the rate 0) show the one box "Needs Attention". -/
theorem zero_intake_report_view (host : Host) (streak : Option Streak) :
    (∃ c, summarySection (some ⟨some ⟨.num 0, .num 0⟩, streak, some []⟩) = .cards c ∧
        c.overallAdherence = "0%" ∧ c.totalDoses = .num 0) ∧
      adherenceChartData host (some ⟨some ⟨.num 0, .num 0⟩, streak, some []⟩) = [] ∧
      AdherenceInsights (.num 0) = [.needsAttention] := by
  refine ⟨⟨_, rfl, ?_, ?_⟩, rfl, ?_⟩
  · simp only [summaryCards, orZero_zero, round_zero]
    exact percent_zero
  · simp only [summaryCards, orZero_zero]
  · simp [AdherenceInsights, JsNum.ge, JsNum.lt, JsNum.toNumber]; norm_num

/-! ### C11: the window of the daily-adherence request -/

theorem fetchReportData_issued (host : Host) (api : ReportsApi) (now1 now2 : Int)
    (s : ReportsState) :
    (fetchReportData host api now1 now2 s).2 =
      [.getAdherenceStats none s.timeRange, .getHealthTrends none s.timeRange] ++
        (if (api.getAdherenceStats none s.timeRange).isResolved &&
            (api.getHealthTrends none s.timeRange).isResolved then
          [.getDailyAdherenceStats none (now1 - (s.timeRange : Int) * msPerDay) now2]
        else []) := by
  have hms : (s.timeRange : Int) * 24 * 60 * 60 * 1000 = (s.timeRange : Int) * msPerDay := by
    simp only [msPerDay]
    ring
  unfold fetchReportData
  cases ha : api.getAdherenceStats none s.timeRange with
  | rejected => simp [Answer.isResolved]
  | resolved a =>
    cases hh : api.getHealthTrends none s.timeRange with
    | rejected => simp [Answer.isResolved]
    | resolved h =>
      simp only [hms]
      cases api.getDailyAdherenceStats none (now1 - (s.timeRange : Int) * msPerDay) now2 <;>
        simp [Answer.isResolved]

/-- C11: for every selectable day count `d` (7, 30 or 90) held in `timeRange` and clock readings
`now1 <= now2`, every daily-adherence request `fetchReportData` issues has the window
`start = now1 - d * 86400000` ms, `end = now2`; so `start < end`, the span is at least `d` days,
and exactly `d` days when the two readings coincide. The request is issued whenever the first two
requests succeed. -/
theorem dailyWindow_span (host : Host) (api : ReportsApi) (now1 now2 : Int) (s : ReportsState)
    (hselect : s.timeRange ∈ selectableTimeRanges) (hclock : now1 ≤ now2) :
    (∀ userId startDate endDate,
        ApiRequest.getDailyAdherenceStats userId startDate endDate ∈
            (fetchReportData host api now1 now2 s).2 →
          startDate = now1 - (s.timeRange : Int) * 86400000 ∧ endDate = now2 ∧
            startDate < endDate ∧ (s.timeRange : Int) * 86400000 ≤ endDate - startDate ∧
            (now1 = now2 → endDate - startDate = (s.timeRange : Int) * 86400000)) ∧
      ((api.getAdherenceStats none s.timeRange).isResolved = true →
        (api.getHealthTrends none s.timeRange).isResolved = true →
        ApiRequest.getDailyAdherenceStats none (now1 - (s.timeRange : Int) * 86400000) now2 ∈
          (fetchReportData host api now1 now2 s).2) := by
  have hpos : 0 < (s.timeRange : Int) := by
    simp only [selectableTimeRanges, List.mem_cons, List.mem_singleton, List.not_mem_nil,
      or_false] at hselect
    rcases hselect with h | h | h <;> rw [h] <;> decide
  rw [fetchReportData_issued]
  simp only [msPerDay]
  refine ⟨fun userId startDate endDate hmem => ?_, fun ha hh => ?_⟩
  · by_cases hres : ((api.getAdherenceStats none s.timeRange).isResolved &&
        (api.getHealthTrends none s.timeRange).isResolved) = true
    · simp only [hres, if_true, List.mem_append, List.mem_cons, List.mem_singleton,
        List.not_mem_nil, or_false, reduceCtorEq, false_or, ApiRequest.getDailyAdherenceStats.injEq]
        at hmem
      obtain ⟨-, hs, he⟩ := hmem
      subst hs he
      refine ⟨rfl, rfl, by omega, by omega, fun h => by omega⟩
    · simp [hres] at hmem
  · simp [ha, hh]

/-- C11 at a concrete input: the first load (time range 30) with both clock readings equal builds
the window of exactly 30 days ending at the reading. -/
theorem dailyWindow_span_witness :
    ReportsState.initial.timeRange ∈ selectableTimeRanges ∧
      ApiRequest.getDailyAdherenceStats none 1755302400000 1757894400000 ∈
        (fetchReportData exampleHost allUpApi 1757894400000 1757894400000
          ReportsState.initial).2 ∧
      (1757894400000 : Int) - 1755302400000 = 30 * 86400000 :=
  ⟨by decide,
    (dailyWindow_span exampleHost allUpApi 1757894400000 1757894400000 ReportsState.initial
      (by decide) (by decide)).2 rfl rfl,
    by decide⟩

/-! ### C12: the overall adherence rate -/

theorem countP_isTaken_le (intakeEvents : List IntakeEvent) :
    (intakeEvents.countP IntakeEvent.isTaken : ℚ) ≤ (intakeEvents.length : ℚ) := by
  exact_mod_cast List.countP_le_length _

theorem round_num (r : ℚ) : Math.round (JsNum.orZero (.num r)) = some ⌊r + 1 / 2⌋ := by
  by_cases h : r = 0
  · subst h
    simp [JsNum.orZero, JsNum.truthy, Math.round, JsNum.toNumber]
  · simp [JsNum.orZero, JsNum.truthy, Math.round, JsNum.toNumber, h]

/-- C12: for every sequence of intake events, the overall adherence rate is
`100 * taken / scheduled` when something is scheduled and 0 when nothing is (no division by zero),
it lies in [0, 100], and the Overall Adherence card that consumes it shows a whole percentage
between 0 and 100. -/
theorem computeAdherence_rate (intakeEvents : List IntakeEvent) :
    ((computeAdherence intakeEvents).totalScheduled ≠ 0 →
        (computeAdherence intakeEvents).adherenceRate =
          100 * ((computeAdherence intakeEvents).totalTaken : ℚ) /
            ((computeAdherence intakeEvents).totalScheduled : ℚ)) ∧
      ((computeAdherence intakeEvents).totalScheduled = 0 →
        (computeAdherence intakeEvents).adherenceRate = 0) ∧
      0 ≤ (computeAdherence intakeEvents).adherenceRate ∧
      (computeAdherence intakeEvents).adherenceRate ≤ 100 ∧
      ∃ n : Int, 0 ≤ n ∧ n ≤ 100 ∧
        (summaryCards ⟨some (computeAdherence intakeEvents).overall, none, none⟩
          (computeAdherence intakeEvents).overall).overallAdherence = toString n ++ "%" := by
  have hle := countP_isTaken_le intakeEvents
  have hnonneg : (0 : ℚ) ≤ (intakeEvents.countP IntakeEvent.isTaken : ℚ) := Nat.cast_nonneg _
  have h0 : 0 ≤ (computeAdherence intakeEvents).adherenceRate := by
    simp only [computeAdherence]
    split_ifs with h
    · exact le_refl 0
    · positivity
  have h100 : (computeAdherence intakeEvents).adherenceRate ≤ 100 := by
    simp only [computeAdherence]
    split_ifs with h
    · norm_num
    · have hpos : (0 : ℚ) < (intakeEvents.length : ℚ) := by
        exact_mod_cast Nat.pos_of_ne_zero h
      rw [div_le_iff₀ hpos]
      linarith
  refine ⟨fun h => ?_, fun h => ?_, h0, h100, ⌊(computeAdherence intakeEvents).adherenceRate + 1 / 2⌋,
    ?_, ?_, ?_⟩
  · simp only [computeAdherence] at h ⊢
    simp [h]
  · simp only [computeAdherence] at h ⊢
    simp [h]
  · exact Int.floor_nonneg.2 (by linarith)
  · have : ⌊(computeAdherence intakeEvents).adherenceRate + 1 / 2⌋ < 101 := by
      rw [Int.floor_lt]
      push_cast
      linarith
    omega
  · simp only [summaryCards, AdherenceSummary.overall, round_num, showRounded]

/-- C12 at a concrete input: two doses taken out of three scheduled give the rate 200/3, and none
scheduled gives 0. -/
theorem computeAdherence_rate_example :
    (computeAdherence twoOfThree).adherenceRate = 200 / 3 ∧
      (computeAdherence []).adherenceRate = 0 := by
  constructor
  · simp [computeAdherence, twoOfThree, IntakeEvent.isTaken, List.countP_cons]
    norm_num
  · simp [computeAdherence]

/-! ### C13: submitting the same alert twice -/

theorem matchesKey_supersede (a b e : Alert) :
    a.matchesKey (b.supersede e) = a.matchesKey e := by
  unfold Alert.supersede
  split_ifs <;> rfl

theorem supersede_supersede (a e : Alert) : a.supersede (a.supersede e) = a.supersede e := by
  by_cases h : a.matchesKey e = true
  · have h2 : a.matchesKey
        { e with severity := a.severity, message := a.message, createdAt := a.createdAt } =
        true := h
    simp only [Alert.supersede, h, h2, if_true]
  · simp [Alert.supersede, h]

theorem supersede_of_not_matches (a e : Alert) (h : a.matchesKey e = false) :
    a.supersede e = e := by
  simp [Alert.supersede, h]

theorem matchesKey_self (a : Alert) (hopen : a.resolved = false) : a.matchesKey a = true := by
  simp [Alert.matchesKey, hopen]

theorem upsertAlert_idem (store : List Alert) (a : Alert) (hopen : a.resolved = false) :
    upsertAlert (upsertAlert store a) a = upsertAlert store a := by
  by_cases hany : store.any a.matchesKey = true
  · have hany2 : (store.map a.supersede).any a.matchesKey = true := by
      rw [List.any_map]
      have : (a.matchesKey ∘ a.supersede) = a.matchesKey := by
        funext e
        exact matchesKey_supersede a a e
      rw [this, hany]
    simp only [upsertAlert, hany, if_true, hany2, List.map_map]
    apply List.map_congr_left
    intro e _
    exact supersede_supersede a e
  · have hnone : ∀ e ∈ store, a.matchesKey e = false := by
      intro e he
      by_contra hc
      exact hany (List.any_eq_true.2 ⟨e, he, by simpa using hc⟩)
    have hany2 : (store ++ [a]).any a.matchesKey = true := by
      simp [matchesKey_self a hopen]
    have hmap : store.map a.supersede = store := by
      calc store.map a.supersede = store.map id :=
            List.map_congr_left fun e he => supersede_of_not_matches a e (hnone e he)
        _ = store := List.map_id _
    have hself : a.supersede a = a := by
      simp [Alert.supersede, matchesKey_self a hopen]
    have h1 : upsertAlert store a = store ++ [a] := by
      simp [upsertAlert, hany]
    have h2 : upsertAlert (store ++ [a]) a = (store ++ [a]).map a.supersede := by
      rw [upsertAlert, if_pos hany2]
    rw [h1, h2, List.map_append, hmap, List.map_cons, List.map_nil, hself]

theorem unresolvedKeys_upsert (store : List Alert) (a : Alert) (hopen : a.resolved = false) :
    unresolvedKeys (upsertAlert store a) =
      if store.any a.matchesKey then unresolvedKeys store else unresolvedKeys store ++ [a.key] := by
  by_cases hany : store.any a.matchesKey = true
  · simp only [upsertAlert, hany, if_true, unresolvedKeys]
    induction store with
    | nil => rfl
    | cons e l ih =>
      have hres : (a.supersede e).resolved = e.resolved := by
        unfold Alert.supersede
        split_ifs <;> rfl
      have hkey : (a.supersede e).key = e.key := by
        unfold Alert.supersede
        split_ifs <;> rfl
      have htail : List.map Alert.key (List.filter (fun e => !e.resolved) (List.map a.supersede l)) =
          List.map Alert.key (List.filter (fun e => !e.resolved) l) := by
        clear ih hany
        induction l with
        | nil => rfl
        | cons x xs ihx =>
          have hres2 : (a.supersede x).resolved = x.resolved := by
            unfold Alert.supersede
            split_ifs <;> rfl
          have hkey2 : (a.supersede x).key = x.key := by
            unfold Alert.supersede
            split_ifs <;> rfl
          simp only [List.map_cons, List.filter_cons, hres2]
          cases x.resolved <;> simp [hkey2, ihx]
      simp only [List.map_cons, List.filter_cons, hres]
      cases e.resolved <;> simp [hkey, htail]
  · simp [upsertAlert, hany, unresolvedKeys, List.filter_append, hopen]

theorem length_filter_eq_of_nodup {α : Type} [DecidableEq α] (l : List α) (k : α)
    (hnodup : l.Nodup) (hk : k ∈ l) : (l.filter fun x => decide (x = k)).length = 1 := by
  induction l with
  | nil => simp at hk
  | cons x xs ih =>
    rw [List.nodup_cons] at hnodup
    by_cases hx : x = k
    · subst hx
      have hnil : xs.filter (fun y => decide (y = x)) = [] := by
        rw [List.filter_eq_nil_iff]
        intro y hy
        simp only [decide_eq_true_eq]
        intro hyx
        exact hnodup.1 (hyx ▸ hy)
      simp [List.filter_cons, hnil]
    · have hk2 : k ∈ xs := by
        rcases List.mem_cons.1 hk with h | h
        · exact absurd h.symm hx
        · exact h
      simp only [List.filter_cons, hx, decide_False, Bool.false_eq_true, if_false]
      exact ih hnodup.2 hk2

/-- C13: alert creation is idempotent on the alert store. Each `createAlert` call sends one POST
of the unchanged alert data; for an unresolved alert, the store after the same submission is
handled twice is the store after it is handled once (the second submission inserts and changes
nothing), and a store in which no two unresolved alerts share a key stays so, holding exactly one
unresolved alert of the submitted key. -/
theorem createAlert_idempotent (store : List Alert) (alertData : Alert)
    (hopen : alertData.resolved = false) :
    alertApi.createAlert alertData = ⟨"POST", "/api/alerts", some alertData⟩ ∧
      handleAlertRequest (handleAlertRequest store (alertApi.createAlert alertData))
          (alertApi.createAlert alertData) =
        handleAlertRequest store (alertApi.createAlert alertData) ∧
      ((unresolvedKeys store).Nodup →
        (unresolvedKeys (handleAlertRequest store (alertApi.createAlert alertData))).Nodup ∧
          ((unresolvedKeys (handleAlertRequest store (alertApi.createAlert alertData))).filter
            fun k => decide (k = alertData.key)).length = 1) := by
  have hhandle : ∀ st, handleAlertRequest st (alertApi.createAlert alertData) =
      upsertAlert st alertData := by
    intro st
    simp [handleAlertRequest, alertApi.createAlert]
  refine ⟨rfl, ?_, fun hnodup => ?_⟩
  · rw [hhandle, hhandle, upsertAlert_idem store alertData hopen]
  · rw [hhandle, unresolvedKeys_upsert store alertData hopen]
    by_cases hany : store.any alertData.matchesKey = true
    · simp only [hany, if_true]
      refine ⟨hnodup, length_filter_eq_of_nodup _ _ hnodup ?_⟩
      obtain ⟨e, he, hm⟩ := List.any_eq_true.1 hany
      simp only [Alert.matchesKey, Bool.and_eq_true, Bool.not_eq_true', beq_iff_eq] at hm
      exact List.mem_map.2 ⟨e, List.mem_filter.2 ⟨he, by simp [hm.1]⟩, hm.2⟩
    · have hnot : alertData.key ∉ unresolvedKeys store := by
        intro hmem
        obtain ⟨e, he, hk⟩ := List.mem_map.1 hmem
        obtain ⟨he1, he2⟩ := List.mem_filter.1 he
        exact hany (List.any_eq_true.2 ⟨e, he1, by
          simp only [Alert.matchesKey, Bool.and_eq_true, beq_iff_eq]
          exact ⟨he2, hk⟩⟩)
      simp only [hany, Bool.false_eq_true, if_false]
      have hnodup2 : (unresolvedKeys store ++ [alertData.key]).Nodup := by
        refine List.nodup_append.2 ⟨hnodup, List.nodup_singleton _, ?_⟩
        intro k hk hk2
        rw [List.mem_singleton] at hk2
        exact hnot (hk2 ▸ hk)
      exact ⟨hnodup2, length_filter_eq_of_nodup _ _ hnodup2 (by simp)⟩

/-- C13 at a concrete input: the critical alert submitted twice to a store holding the low alert
leaves the two alerts, as one submission does. -/
theorem createAlert_idempotent_witness :
    criticalAlert.resolved = false ∧
      handleAlertRequest (handleAlertRequest [lowAlert] (alertApi.createAlert criticalAlert))
          (alertApi.createAlert criticalAlert) = [lowAlert, criticalAlert] :=
  ⟨rfl, by
    rw [(createAlert_idempotent [lowAlert] criticalAlert rfl).2.1]
    decide⟩

/-! ### C14: the order of the rendered alerts -/

/-- C14, as stated, fails on the code: for the fetched list holding a low alert and then a critical
alert, both dashboards render the low alert before the critical one. -/
theorem dashboards_ranking_counterexample :
    caregiverRecentAlerts [lowAlert, criticalAlert] = [lowAlert, criticalAlert] ∧
      doctorClinicalAlerts [lowAlert, criticalAlert] = [lowAlert, criticalAlert] ∧
      ¬ rankedBySeverity (caregiverRecentAlerts [lowAlert, criticalAlert]) ∧
      ¬ rankedBySeverity (doctorClinicalAlerts [lowAlert, criticalAlert]) := by
  decide

/-- C14, amended: the dashboards render the alerts in the order fetched. For every fetched alert
list, Recent Alerts is its first 10 alerts and Clinical Alerts its first 5, in fetched order and
unchanged; so a rendered list is ranked by severity whenever the fetched list is, and a fetched
list short enough to be rendered whole is rendered ranked exactly when it was fetched ranked. -/
theorem dashboards_keep_fetched_order (alerts : List Alert) :
    caregiverRecentAlerts alerts <+: alerts ∧
      (caregiverRecentAlerts alerts).length = min 10 alerts.length ∧
      doctorClinicalAlerts alerts <+: alerts ∧
      (doctorClinicalAlerts alerts).length = min 5 alerts.length ∧
      (rankedBySeverity alerts →
        rankedBySeverity (caregiverRecentAlerts alerts) ∧
          rankedBySeverity (doctorClinicalAlerts alerts)) ∧
      (alerts.length ≤ 10 →
        (rankedBySeverity (caregiverRecentAlerts alerts) ↔ rankedBySeverity alerts)) ∧
      (alerts.length ≤ 5 →
        (rankedBySeverity (doctorClinicalAlerts alerts) ↔ rankedBySeverity alerts)) := by
  refine ⟨List.take_prefix _ _, List.length_take _ _, List.take_prefix _ _, List.length_take _ _,
    fun h => ⟨?_, ?_⟩, fun h => ?_, fun h => ?_⟩
  · exact List.Pairwise.sublist (List.take_sublist _ _) h
  · exact List.Pairwise.sublist (List.take_sublist _ _) h
  · rw [caregiverRecentAlerts, List.take_of_length_le h]
  · rw [doctorClinicalAlerts, List.take_of_length_le h]

/-! ### Shared lemmas about the appointment handlers -/

theorem resolveCreatePlaceholders_ok (req : AppointmentRequest) (p d : Option String)
    (h : resolveCreatePlaceholders req = .ok (p, d)) :
    (req.body.patientId = some "current-user" →
        ∃ u, req.user = some u ∧ u.id = p ∧ truthyString u.id = true) ∧
      (req.body.patientId ≠ some "current-user" → p = req.body.patientId) ∧
      (req.body.doctorId = some "default-doctor" → ∃ u, req.user = some u ∧ u.id = d) ∧
      (req.body.doctorId ≠ some "default-doctor" → d = req.body.doctorId) := by
  by_cases hp : req.body.patientId = some "current-user" <;>
    by_cases hd : req.body.doctorId = some "default-doctor" <;>
    cases hu : req.user with
    | none => simp [resolveCreatePlaceholders, hp, hd, hu, typeError] at h ⊢ <;> simp [h]
    | some u =>
      by_cases ht : truthyString u.id = true <;>
        simp [resolveCreatePlaceholders, hp, hd, hu, ht] at h ⊢ <;>
        first
          | exact h
          | simp [h, ht]

theorem mem_createAppointment_iff (lib : ObjectIdLib) (req : AppointmentRequest)
    (a : AppointmentData) :
    a ∈ (createAppointment lib req).2 ↔
      ∃ p d, resolveCreatePlaceholders req = .ok (some p, some d) ∧ lib.isValid p = true ∧
        lib.isValid d = true ∧ a = ⟨lib.objectId p, lib.objectId d, req.body.rest⟩ := by
  unfold createAppointment
  cases h : resolveCreatePlaceholders req with
  | error e => simp
  | ok pd =>
    obtain ⟨p, d⟩ := pd
    cases p with
    | none => simp [isValidId]
    | some p =>
      cases d with
      | none => by_cases hvp : lib.isValid p = true <;> simp [isValidId, hvp]
      | some d =>
        by_cases hvp : lib.isValid p = true <;> by_cases hvd : lib.isValid d = true <;>
          simp [isValidId, hvp, hvd]
        constructor
        · intro ha
          exact ⟨p, d, ⟨rfl, rfl⟩, hvp, hvd, ha⟩
        · rintro ⟨p1, d1, ⟨rfl, rfl⟩, -, -, ha⟩
          exact ha

theorem createAppointment_of_ok (lib : ObjectIdLib) (req : AppointmentRequest)
    (p d : Option String) (h : resolveCreatePlaceholders req = .ok (p, d)) :
    createAppointment lib req =
      if isValidId lib p = false then (.json 400 false "Invalid patientId", [])
      else if isValidId lib d = false then (.json 400 false "Invalid doctorId", [])
      else
        (.json 201 true "Appointment created successfully",
          [⟨lib.objectId (p.getD ""), lib.objectId (d.getD ""), req.body.rest⟩]) := by
  simp only [createAppointment, h]

theorem replaceCurrentUser_some (u : AuthUser) (field : Option String) :
    replaceCurrentUser (some u) field = .ok (u.resolve field) := by
  by_cases h : field = some "current-user" <;> simp [replaceCurrentUser, AuthUser.resolve, h]

theorem validateAndConvert_eq (lib : ObjectIdLib) (field : Option String) :
    validateAndConvert lib field =
      if truthyString field then
        if isValidId lib field then some (field.map lib.objectId) else none
      else some field := by
  cases field with
  | none => simp [validateAndConvert, truthyString]
  | some s => simp [validateAndConvert, isValidId]

/-! ### C15: placeholders are resolved before the appointment is created -/

/-- C15: whenever `createAppointment` hands an appointment to `Appointment.create`, its ids are
the ObjectIds of two valid id strings `p` and `d` obtained after placeholder handling: a
`patientId` of 'current-user' has been replaced by the authenticated user's id and a `doctorId`
of 'default-doctor' by the authenticated user's id (any other id is used as sent). So, the user's
own id not being a placeholder string, the patient id is never 'current-user' and the doctor id
never 'default-doctor'; the rest of the body is stored as sent. -/
theorem createAppointment_resolves_placeholders (lib : ObjectIdLib) (req : AppointmentRequest)
    (a : AppointmentData) (hcreated : a ∈ (createAppointment lib req).2) :
    ∃ p d, a = ⟨lib.objectId p, lib.objectId d, req.body.rest⟩ ∧
      lib.isValid p = true ∧ lib.isValid d = true ∧
      (req.body.patientId = some "current-user" → ∃ u, req.user = some u ∧ u.id = some p) ∧
      (req.body.patientId ≠ some "current-user" → req.body.patientId = some p) ∧
      (req.body.doctorId = some "default-doctor" → ∃ u, req.user = some u ∧ u.id = some d) ∧
      (req.body.doctorId ≠ some "default-doctor" → req.body.doctorId = some d) ∧
      ((∀ u, req.user = some u → u.id ≠ some "current-user") → p ≠ "current-user") ∧
      ((∀ u, req.user = some u → u.id ≠ some "default-doctor") → d ≠ "default-doctor") := by
  obtain ⟨p, d, hres, hvp, hvd, ha⟩ := (mem_createAppointment_iff lib req a).1 hcreated
  obtain ⟨h1, h2, h3, h4⟩ := resolveCreatePlaceholders_ok req _ _ hres
  refine ⟨p, d, ha, hvp, hvd, ?_, ?_, ?_, ?_, ?_, ?_⟩
  · intro hp
    obtain ⟨u, hu, hid, -⟩ := h1 hp
    exact ⟨u, hu, hid⟩
  · intro hp
    exact (h2 hp).symm
  · exact h3
  · intro hd
    exact (h4 hd).symm
  · intro huser hpc
    by_cases hp : req.body.patientId = some "current-user"
    · obtain ⟨u, hu, hid, -⟩ := h1 hp
      exact huser u hu (by rw [hid, hpc])
    · exact hp (by rw [← h2 hp, hpc])
  · intro huser hdc
    by_cases hd : req.body.doctorId = some "default-doctor"
    · obtain ⟨u, hu, hid⟩ := h3 hd
      exact huser u hu (by rw [hid, hdc])
    · exact hd (by rw [← h4 hd, hdc])

/-- C15 at a concrete input: the request of `alice` with both placeholders creates the appointment
whose patient and doctor are `alice`. -/
theorem createAppointment_resolves_placeholders_witness :
    (⟨alice, alice, exampleRest⟩ : AppointmentData) ∈
        (createAppointment hexIds placeholderRequest).2 ∧
      ∃ p d, (⟨alice, alice, exampleRest⟩ : AppointmentData) =
          ⟨hexIds.objectId p, hexIds.objectId d, placeholderRequest.body.rest⟩ ∧
        p ≠ "current-user" ∧ d ≠ "default-doctor" :=
  ⟨by decide,
    match createAppointment_resolves_placeholders hexIds placeholderRequest
      ⟨alice, alice, exampleRest⟩ (by decide) with
    | ⟨p, d, ha, _, _, _, _, _, _, hp, hd⟩ =>
      ⟨p, d, ha,
        hp (fun u hu => by
          have h : aliceUser = u := Option.some.inj hu
          rw [← h]
          decide),
        hd (fun u hu => by
          have h : aliceUser = u := Option.some.inj hu
          rw [← h]
          decide)⟩⟩

/-! ### C16: the error paths of createAppointment -/

/-- C16, at the failing input: without an authenticated user, a request whose `doctorId` is
'default-doctor' and whose `patientId` is the invalid id 'not-an-id' makes `createAppointment`
throw while reading `req.user.id` (nothing is created), where the claim has it answer 400
'Invalid patientId'; the sibling placeholder 'current-user' is guarded and answers 401. -/
theorem createAppointment_unguarded_default_doctor :
    unguardedRequest.user = none ∧
      isValidId hexIds unguardedRequest.body.patientId = false ∧
      createAppointment hexIds unguardedRequest = (typeError, []) ∧
      createAppointment hexIds
          ⟨⟨some "current-user", some "default-doctor", exampleRest⟩, none, ""⟩ =
        (.json 401 false "Not authenticated", []) := by
  decide

/-- The error paths of `createAppointment` where the placeholder step does not throw (an
authenticated user, or a `doctorId` other than 'default-doctor'): 401 for 'current-user' without
a usable user id, else 400 'Invalid patientId', else 400 'Invalid doctorId', and an appointment is
created exactly when both ids are valid after placeholder handling. -/
theorem createAppointment_error_paths (lib : ObjectIdLib) (req : AppointmentRequest)
    (hguard : req.user ≠ none ∨ req.body.doctorId ≠ some "default-doctor") :
    (resolveCreatePlaceholders req = .error (.json 401 false "Not authenticated") ∧
        createAppointment lib req = (.json 401 false "Not authenticated", []) ∧
        req.body.patientId = some "current-user") ∨
      ∃ p d, resolveCreatePlaceholders req = .ok (p, d) ∧
        createAppointment lib req =
          if isValidId lib p = false then (.json 400 false "Invalid patientId", [])
          else if isValidId lib d = false then (.json 400 false "Invalid doctorId", [])
          else
            (.json 201 true "Appointment created successfully",
              [⟨lib.objectId (p.getD ""), lib.objectId (d.getD ""), req.body.rest⟩]) := by
  cases h : resolveCreatePlaceholders req with
  | ok pd =>
    obtain ⟨p, d⟩ := pd
    exact Or.inr ⟨p, d, rfl, createAppointment_of_ok lib req p d h⟩
  | error e =>
    left
    have he : e = .json 401 false "Not authenticated" ∧ req.body.patientId = some "current-user" := by
      by_cases hp : req.body.patientId = some "current-user" <;>
        by_cases hd : req.body.doctorId = some "default-doctor" <;>
        cases hu : req.user with
        | none =>
          first
            | (exfalso; rcases hguard with hg | hg
               · exact hg hu
               · exact hg hd)
            | (simp [resolveCreatePlaceholders, hp, hd, hu] at h <;> simp [← h, hp])
        | some u =>
          by_cases ht : truthyString u.id = true <;>
            simp [resolveCreatePlaceholders, hp, hd, hu, ht] at h <;> simp [← h, hp]
    obtain ⟨he1, he2⟩ := he
    subst he1
    exact ⟨rfl, by simp [createAppointment, h], he2⟩

/-! ### C18: updateAppointment validates the ids that are present -/

theorem updateAppointment_authenticated (lib : ObjectIdLib) (model : AppointmentModel)
    (req : AppointmentRequest) (u : AuthUser) (hauth : req.user = some u) :
    updateAppointment lib model req =
      match validateAndConvert lib (u.resolve req.body.patientId) with
      | none => (.json 400 false "Invalid patientId", [])
      | some patientId =>
        match validateAndConvert lib (u.resolve req.body.doctorId) with
        | none => (.json 400 false "Invalid doctorId", [])
        | some doctorId =>
          match model.findByIdAndUpdate req.paramsId ⟨patientId, doctorId, req.body.rest⟩ with
          | none =>
            (.json 404 false "Appointment not found",
              [(req.paramsId, ⟨patientId, doctorId, req.body.rest⟩)])
          | some _ =>
            (.json 200 true "Appointment updated successfully",
              [(req.paramsId, ⟨patientId, doctorId, req.body.rest⟩)]) := by
  simp only [updateAppointment, hauth, replaceCurrentUser_some]

/-- C18: for an authenticated user, `updateAppointment` validates `patientId` and `doctorId` only
when they are present. With 'current-user' replaced by the user's id in both fields, the update is
performed if and only if each of the two is falsy or a valid object id; a truthy invalid
`patientId` gives 400 'Invalid patientId', otherwise a truthy invalid `doctorId` gives 400
'Invalid doctorId', in both cases with no update; and every update made is for `req.params.id`,
carries the rest of the body unchanged, a truthy id as its ObjectId and a falsy id as it was. -/
theorem updateAppointment_validates_present_ids (lib : ObjectIdLib) (model : AppointmentModel)
    (req : AppointmentRequest) (u : AuthUser) (hauth : req.user = some u) :
    ((updateAppointment lib model req).2 ≠ [] ↔
        (truthyString (u.resolve req.body.patientId) = false ∨
            isValidId lib (u.resolve req.body.patientId) = true) ∧
          (truthyString (u.resolve req.body.doctorId) = false ∨
            isValidId lib (u.resolve req.body.doctorId) = true)) ∧
      (truthyString (u.resolve req.body.patientId) = true →
        isValidId lib (u.resolve req.body.patientId) = false →
        updateAppointment lib model req = (.json 400 false "Invalid patientId", [])) ∧
      ((truthyString (u.resolve req.body.patientId) = false ∨
            isValidId lib (u.resolve req.body.patientId) = true) →
        truthyString (u.resolve req.body.doctorId) = true →
        isValidId lib (u.resolve req.body.doctorId) = false →
        updateAppointment lib model req = (.json 400 false "Invalid doctorId", [])) ∧
      (∀ call ∈ (updateAppointment lib model req).2,
        call.1 = req.paramsId ∧ call.2.rest = req.body.rest ∧
          call.2.patientId =
            (if truthyString (u.resolve req.body.patientId) then
              (u.resolve req.body.patientId).map lib.objectId
            else u.resolve req.body.patientId) ∧
          call.2.doctorId =
            (if truthyString (u.resolve req.body.doctorId) then
              (u.resolve req.body.doctorId).map lib.objectId
            else u.resolve req.body.doctorId)) := by
  rw [updateAppointment_authenticated lib model req u hauth]
  simp only [validateAndConvert_eq]
  generalize u.resolve req.body.patientId = P
  generalize u.resolve req.body.doctorId = D
  by_cases htp : truthyString P = true <;> by_cases hvp : isValidId lib P = true <;>
    by_cases htd : truthyString D = true <;> by_cases hvd : isValidId lib D = true <;>
    simp [htp, hvp, htd, hvd] <;>
    cases model.findByIdAndUpdate req.paramsId _ <;> simp

/-- C18 at a concrete input: an update by `alice` that sends no `patientId`, the placeholder
'current-user' as `doctorId` and two other fields is performed with the doctor set to `alice` and
the other fields unchanged. -/
theorem updateAppointment_validates_present_ids_witness :
    updateAppointment hexIds allFoundModel
        ⟨⟨none, some "current-user", exampleRest⟩, some aliceUser, "5f1d7f3e2b4c6a0012345609"⟩ =
      (.json 200 true "Appointment updated successfully",
        [("5f1d7f3e2b4c6a0012345609", ⟨none, some alice, exampleRest⟩)]) ∧
      ((updateAppointment hexIds allFoundModel
          ⟨⟨none, some "current-user", exampleRest⟩, some aliceUser,
            "5f1d7f3e2b4c6a0012345609"⟩).2 ≠ [] ↔
        (truthyString (aliceUser.resolve none) = false ∨
            isValidId hexIds (aliceUser.resolve none) = true) ∧
          (truthyString (aliceUser.resolve (some "current-user")) = false ∨
            isValidId hexIds (aliceUser.resolve (some "current-user")) = true)) :=
  ⟨by decide,
    (updateAppointment_validates_present_ids hexIds allFoundModel
      ⟨⟨none, some "current-user", exampleRest⟩, some aliceUser, "5f1d7f3e2b4c6a0012345609"⟩
      aliceUser rfl).1⟩

/-! ### C19: the two handlers resolve different doctor placeholders -/

/-- C19: for an authenticated user with a valid id `uid` and a valid, non-empty `patientId`, the
string 'default-doctor' being no valid object id: `createAppointment` with `doctorId`
'default-doctor' creates the appointment with the user's id as doctor, while `updateAppointment`
with `doctorId` 'default-doctor' answers 400 'Invalid doctorId' and updates nothing; conversely
`updateAppointment` replaces `doctorId` 'current-user' by the user's id in the update it makes,
while `createAppointment` hands `doctorId` 'current-user' to validation as it is, answering 400
'Invalid doctorId' when the library rejects that string and creating an appointment whose doctor
is the ObjectId of 'current-user', not of the user, when the library accepts it. -/
theorem doctor_placeholders_differ (lib : ObjectIdLib) (model : AppointmentModel)
    (u : AuthUser) (uid patientId paramsId : String) (rest : JsObject)
    (huid : u.id = some uid) (huidne : uid ≠ "") (hvuid : lib.isValid uid = true)
    (hpne : patientId ≠ "") (hpc : patientId ≠ "current-user")
    (hvp : lib.isValid patientId = true) (hdefault : lib.isValid "default-doctor" = false) :
    createAppointment lib ⟨⟨some patientId, some "default-doctor", rest⟩, some u, paramsId⟩ =
        (.json 201 true "Appointment created successfully",
          [⟨lib.objectId patientId, lib.objectId uid, rest⟩]) ∧
      updateAppointment lib model
          ⟨⟨some patientId, some "default-doctor", rest⟩, some u, paramsId⟩ =
        (.json 400 false "Invalid doctorId", []) ∧
      (updateAppointment lib model
          ⟨⟨some patientId, some "current-user", rest⟩, some u, paramsId⟩).2 =
        [(paramsId, ⟨some (lib.objectId patientId), some (lib.objectId uid), rest⟩)] ∧
      resolveCreatePlaceholders ⟨⟨some patientId, some "current-user", rest⟩, some u, paramsId⟩ =
        .ok (some patientId, some "current-user") ∧
      createAppointment lib ⟨⟨some patientId, some "current-user", rest⟩, some u, paramsId⟩ =
        (if lib.isValid "current-user" = false then (.json 400 false "Invalid doctorId", [])
        else
          (.json 201 true "Appointment created successfully",
            [⟨lib.objectId patientId, lib.objectId "current-user", rest⟩])) := by
  have hres1 : resolveCreatePlaceholders
      ⟨⟨some patientId, some "default-doctor", rest⟩, some u, paramsId⟩ =
      .ok (some patientId, some uid) := by
    simp [resolveCreatePlaceholders, hpc, huid]
  have hres2 : resolveCreatePlaceholders
      ⟨⟨some patientId, some "current-user", rest⟩, some u, paramsId⟩ =
      .ok (some patientId, some "current-user") := by
    simp [resolveCreatePlaceholders, hpc]
  have hresolve : u.resolve (some "current-user") = some uid := by
    simp [AuthUser.resolve, orElse, huid, huidne]
  have hkeep : ∀ s : String, s ≠ "current-user" → u.resolve (some s) = some s := by
    intro s hs
    simp [AuthUser.resolve, hs]
  have htp : truthyString (some patientId) = true := by
    simp [truthyString, hpne]
  have htu : truthyString (some uid) = true := by
    simp [truthyString, huidne]
  refine ⟨?_, ?_, ?_, hres2, ?_⟩
  · rw [createAppointment_of_ok lib _ _ _ hres1]
    simp [isValidId, hvp, hvuid]
  · rw [updateAppointment_authenticated lib model _ u rfl]
    have htd : truthyString (some "default-doctor") = true := by decide
    simp only [validateAndConvert_eq, hkeep patientId hpc, hkeep "default-doctor" (by decide),
      htp, htd, isValidId, hvp, hdefault, if_true, Bool.false_eq_true, if_false]
  · rw [updateAppointment_authenticated lib model _ u rfl]
    simp only [validateAndConvert_eq, hkeep patientId hpc, hresolve, htp, htu, isValidId, hvp,
      hvuid, if_true, Option.map_some']
    cases model.findByIdAndUpdate paramsId _ <;> rfl
  · rw [createAppointment_of_ok lib _ _ _ hres2]
    simp [isValidId, hvp]

/-- C19 at a concrete input: `alice` as the authenticated user, `bob` as the patient. -/
theorem doctor_placeholders_differ_witness :
    createAppointment hexIds ⟨⟨some bob, some "default-doctor", exampleRest⟩, some aliceUser, ""⟩ =
        (.json 201 true "Appointment created successfully", [⟨bob, alice, exampleRest⟩]) ∧
      updateAppointment hexIds allFoundModel
          ⟨⟨some bob, some "default-doctor", exampleRest⟩, some aliceUser, ""⟩ =
        (.json 400 false "Invalid doctorId", []) :=
  ⟨(doctor_placeholders_differ hexIds allFoundModel aliceUser alice bob "" exampleRest rfl
      (by decide) (by decide) (by decide) (by decide) (by decide) (by decide)).1,
    (doctor_placeholders_differ hexIds allFoundModel aliceUser alice bob "" exampleRest rfl
      (by decide) (by decide) (by decide) (by decide) (by decide) (by decide)).2.1⟩

/-! ### C17: getUserById -/

theorem isHexChar_iff (c : Char) : isHexChar c = true ↔ c ∈ hexDigits := by
  constructor
  · intro h
    have hc := Char.ofNat_toNat c
    simp only [isHexChar, Bool.or_eq_true, Bool.and_eq_true, decide_eq_true_eq] at h
    rcases h with (⟨h1, h2⟩ | ⟨h1, h2⟩) | ⟨h1, h2⟩ <;>
      (interval_cases hn : c.toNat <;> (rw [← hc]; decide))
  · intro h
    simp only [hexDigits, List.mem_cons, List.mem_singleton, List.not_mem_nil, or_false] at h
    rcases h with h | h | h | h | h | h | h | h | h | h | h | h | h | h | h | h | h | h | h | h |
      h | h <;> (rw [h]; decide)

theorem isObjectIdHex_iff (userId : String) :
    isObjectIdHex userId = true ↔ userId.length = 24 ∧ ∀ c ∈ userId.data, c ∈ hexDigits := by
  simp only [isObjectIdHex, Bool.and_eq_true, beq_iff_eq, List.all_eq_true, isHexChar_iff,
    String.length]

/-- C17: `getUserById` rejects with 'Invalid user ID' (400) if and only if the id is missing or is
not exactly 24 hexadecimal characters, and then performs no lookup; for a well-formed id it looks
the id up once, rejects with 'User not found' (404) when no stored user has it and otherwise
answers 200 with the first such user, without the `password` and `__v` fields. -/
theorem getUserById_outcomes (lib : ObjectIdLib) (store : List UserDoc)
    (paramsId : Option String) :
    ((getUserById lib store paramsId).1 = .appError "Invalid user ID" 400 ↔
        ¬ ∃ userId, paramsId = some userId ∧ userId.length = 24 ∧
          ∀ c ∈ userId.data, c ∈ hexDigits) ∧
      ((getUserById lib store paramsId).1 = .appError "Invalid user ID" 400 →
        (getUserById lib store paramsId).2 = []) ∧
      (∀ userId, paramsId = some userId → userId.length = 24 →
        (∀ c ∈ userId.data, c ∈ hexDigits) →
        (getUserById lib store paramsId).2 = [userId] ∧
          ((∀ user ∈ store, user._id ≠ lib.objectId userId) →
            (getUserById lib store paramsId).1 = .appError "User not found" 404) ∧
          (∀ user, store.find? (fun x => x._id == lib.objectId userId) = some user →
            (getUserById lib store paramsId).1 =
                .json 200 true "User retrieved successfully" (selectUser user) ∧
              (selectUser user)._id = lib.objectId userId ∧
              (selectUser user).fields.get "password" = none ∧
              (selectUser user).fields.get "__v" = none)) := by
  cases paramsId with
  | none => simp [getUserById]
  | some userId =>
    by_cases hhex : isObjectIdHex userId = true
    · have hform := (isObjectIdHex_iff userId).1 hhex
      have hne : userId ≠ "" := by
        intro h
        rw [h] at hform
        exact absurd hform.1 (by decide)
      have hval : getUserById lib store (some userId) =
          match store.find? fun user => user._id == lib.objectId userId with
          | none => (.appError "User not found" 404, [userId])
          | some user =>
            (.json 200 true "User retrieved successfully" (selectUser user), [userId]) := by
        simp [getUserById, hhex, hne]
      rw [hval]
      cases hfind : store.find? (fun x => x._id == lib.objectId userId) with
      | none =>
        refine ⟨⟨fun h => ?_, fun h => ?_⟩, fun h => ?_, ?_⟩
        · simp at h
        · exact absurd ⟨userId, rfl, hform⟩ h
        · simp at h
        · intro x hx _ _
          obtain rfl : userId = x := Option.some.inj hx
          refine ⟨rfl, fun _ => rfl, fun user huser => ?_⟩
          rw [hfind] at huser
          exact absurd huser (by simp)
      | some user =>
        have hid : user._id = lib.objectId userId := by
          have hp := List.find?_some (p := fun x : UserDoc => x._id == lib.objectId userId) hfind
          simpa using hp
        have hmem : user ∈ store := List.mem_of_find?_eq_some hfind
        refine ⟨⟨fun h => ?_, fun h => ?_⟩, fun h => ?_, ?_⟩
        · simp at h
        · exact absurd ⟨userId, rfl, hform⟩ h
        · simp at h
        · intro x hx _ _
          obtain rfl : userId = x := Option.some.inj hx
          refine ⟨rfl, fun hall => absurd hid (hall user hmem), fun user2 huser2 => ?_⟩
          rw [hfind] at huser2
          obtain rfl : user = user2 := Option.some.inj huser2
          refine ⟨rfl, hid, ?_, ?_⟩
          · simp [selectUser, JsObject.get, JsObject.remove, List.find?_eq_none]
          · simp only [selectUser, JsObject.get, JsObject.remove, Option.map_eq_none',
              List.find?_eq_none, List.mem_filter]
            intro e he
            simpa using he.2
    · have hform : ¬ (userId.length = 24 ∧ ∀ c ∈ userId.data, c ∈ hexDigits) := fun h =>
        hhex ((isObjectIdHex_iff userId).2 h)
      have hhex2 : isObjectIdHex userId = false := by simpa using hhex
      have hval : getUserById lib store (some userId) = (.appError "Invalid user ID" 400, []) := by
        simp [getUserById, hhex2]
      rw [hval]
      refine ⟨⟨fun _ => ?_, fun _ => rfl⟩, fun _ => rfl, ?_⟩
      · rintro ⟨x, hx, hlen, hall⟩
        obtain rfl : userId = x := Option.some.inj hx
        exact hform ⟨hlen, hall⟩
      · intro x hx hlen hall
        obtain rfl : userId = x := Option.some.inj hx
        exact absurd ⟨hlen, hall⟩ hform

/-- C17 at concrete inputs: a missing id and a 23-character id are rejected with no lookup, an
unknown well-formed id is not found, and `alice` is returned without her password. -/
theorem getUserById_example :
    getUserById hexIds [aliceDoc] none = (.appError "Invalid user ID" 400, []) ∧
      getUserById hexIds [aliceDoc] (some "64b7f0c2a1d4e5f6a7b8c9d") =
        (.appError "Invalid user ID" 400, []) ∧
      getUserById hexIds [aliceDoc] (some bob) = (.appError "User not found" 404, [bob]) ∧
      getUserById hexIds [aliceDoc] (some alice) =
        (.json 200 true "User retrieved successfully" ⟨alice, ⟨[("name", .str "Alice")]⟩⟩,
          [alice]) := by
  decide

/-! ### C20: the owner of a created medicine -/

theorem JsObject.get_set_self (o : JsObject) (k : String) (v : FieldValue) :
    (o.set k v).get k = some v := by
  obtain ⟨l⟩ := o
  by_cases hany : l.any (fun e => e.1 == k) = true
  · simp only [JsObject.set, hany, if_true, JsObject.get]
    induction l with
    | nil => simp at hany
    | cons e l ih =>
      simp only [List.map_cons]
      by_cases he : e.1 = k
      · have hfe : (if (e.1 == k) = true then (k, v) else e) = (k, v) := by simp [he]
        rw [hfe, List.find?_cons_of_pos _ (by simp)]
        rfl
      · have hfe : (if (e.1 == k) = true then (k, v) else e) = e := by simp [he]
        have hany2 : l.any (fun e => e.1 == k) = true := by
          simpa [List.any_cons, he] using hany
        rw [hfe, List.find?_cons_of_neg _ (by simpa using he)]
        exact ih hany2
  · have hnone : l.find? (fun e => e.1 == k) = none := by
      rw [List.find?_eq_none]
      intro e he hk
      exact hany (List.any_eq_true.2 ⟨e, he, hk⟩)
    simp [JsObject.set, hany, JsObject.get, List.find?_append, hnone]

theorem JsObject.get_set_of_ne (o : JsObject) (k k2 : String) (v : FieldValue) (hne : k2 ≠ k) :
    (o.set k v).get k2 = o.get k2 := by
  obtain ⟨l⟩ := o
  have hne2 : ¬ k = k2 := fun h => hne h.symm
  by_cases hany : l.any (fun e => e.1 == k) = true
  · simp only [JsObject.set, hany, if_true, JsObject.get]
    clear hany
    induction l with
    | nil => rfl
    | cons e l ih =>
      simp only [List.map_cons]
      by_cases he : e.1 = k
      · have hfe : (if (e.1 == k) = true then (k, v) else e) = (k, v) := by simp [he]
        have he2 : ¬ e.1 = k2 := fun h => hne (h.symm.trans he)
        rw [hfe, List.find?_cons_of_neg _ (by simpa using hne2),
          List.find?_cons_of_neg _ (by simpa using he2)]
        exact ih
      · have hfe : (if (e.1 == k) = true then (k, v) else e) = e := by simp [he]
        rw [hfe]
        by_cases he2 : e.1 = k2
        · rw [List.find?_cons_of_pos _ (by simpa using he2),
            List.find?_cons_of_pos _ (by simpa using he2)]
        · rw [List.find?_cons_of_neg _ (by simpa using he2),
            List.find?_cons_of_neg _ (by simpa using he2)]
          exact ih
  · simp only [JsObject.set, hany, Bool.false_eq_true, if_false, JsObject.get,
      List.find?_append]
    cases l.find? (fun e => e.1 == k2) with
    | none => simp [List.find?_cons, hne2]
    | some e => simp

/-- C20: the owner of a created medicine cannot be chosen by the request body. For every body,
`createMedicine` answers 201 and hands `Medicine.create` one object whose `userId` is the route's
`userId` when present (non-empty) and the authenticated user's `_id` otherwise, and whose every
other field is the body's; so the objects created for two bodies that agree on every field other
than `userId` agree on every field. -/
theorem createMedicine_owner (body : JsObject) (req : MedicineRequest) :
    ∃ medicineData, createMedicine body req = ⟨201, "Medicine added successfully", [medicineData]⟩ ∧
      medicineData.get "userId" = some (.str (requestedUserId req)) ∧
      (∀ u, req.paramsUserId = some u → u ≠ "" → medicineData.get "userId" = some (.str u)) ∧
      (req.paramsUserId = none → medicineData.get "userId" = some (.str req.user_id)) ∧
      (∀ k, k ≠ "userId" → medicineData.get k = body.get k) ∧
      ∀ body2 : JsObject, (∀ k, k ≠ "userId" → body2.get k = body.get k) →
        ∃ medicineData2, (createMedicine body2 req).created = [medicineData2] ∧
          ∀ k, medicineData2.get k = medicineData.get k := by
  refine ⟨body.set "userId" (.str (requestedUserId req)), rfl, JsObject.get_set_self _ _ _, ?_, ?_,
    fun k hk => JsObject.get_set_of_ne _ _ _ _ hk, fun body2 hagree => ?_⟩
  · intro u hu hne
    rw [JsObject.get_set_self]
    simp [requestedUserId, orElse, hu, hne]
  · intro hnone
    rw [JsObject.get_set_self]
    simp [requestedUserId, orElse, hnone]
  · refine ⟨body2.set "userId" (.str (requestedUserId req)), rfl, fun k => ?_⟩
    by_cases hk : k = "userId"
    · subst hk
      rw [JsObject.get_set_self, JsObject.get_set_self]
    · rw [JsObject.get_set_of_ne _ _ _ _ hk, JsObject.get_set_of_ne _ _ _ _ hk, hagree k hk]

/-- C20 at concrete inputs: `alice` posting a body that names `bob` as owner, and the same body
without an owner, both create a medicine owned by `alice`. -/
theorem createMedicine_owner_example :
    (createMedicine bodyForBob aliceRequest).created =
        [⟨[("name", .str "Metformin"), ("userId", .str alice), ("stock", .num 30)]⟩] ∧
      (createMedicine bodyNoOwner aliceRequest).created =
        [⟨[("name", .str "Metformin"), ("stock", .num 30), ("userId", .str alice)]⟩] := by
  decide

/-! ### C21: a null vital in the trend charts -/

theorem mem_normalizedTrends_of_filter (host : Host) (rawTrends : List HealthReading)
    (r : HealthReading) (hmem : r ∈ rawTrends) (hkeep : trendFilter r = true) :
    normalizeRecord host r ∈ normalizedTrends host rawTrends :=
  (sortByDate_perm host _ _).mem_iff.2
    (List.mem_map.2 ⟨r, List.mem_filter.2 ⟨hmem, hkeep⟩, rfl⟩)

theorem number_null : Number .null = .num 0 := rfl

theorem number_defined (x : JsNum) (hdef : x ≠ .undefined) (hnan : x ≠ .nan) :
    Number x ≠ .null ∧ (Number x).isNaN = false := by
  cases x with
  | undefined => exact absurd rfl hdef
  | null => exact ⟨by simp [Number, JsNum.toNumber], rfl⟩
  | num q => exact ⟨by simp [Number, JsNum.toNumber], rfl⟩
  | nan => exact absurd rfl hnan

/-- C21: a null vital is charted as 0. For every dated trend record whose three vitals are all
defined, normalisation keeps the record; when its `bloodSugar.value` is `null` the normalised
value is 0 and `sugarTrendData` has the entry with value 0 for the record's date; when its
systolic (or diastolic) is `null` and the other blood-pressure value is not `NaN`, the normalised
systolic (diastolic) is 0 and `bpTrendData` has an entry with that 0 for the record's date. -/
theorem null_vital_charted_as_zero (host : Host) (rawTrends : List HealthReading)
    (r : HealthReading) (d : String) (hmem : r ∈ rawTrends) (hdate : r.date = some d)
    (hdated : d ≠ "") (hsystolic : r.systolic ≠ .undefined)
    (hdiastolic : r.diastolic ≠ .undefined) (hsugar : r.sugar ≠ .undefined) :
    normalizeRecord host r ∈ normalizedTrends host rawTrends ∧
      (r.sugar = .null →
        (normalizeRecord host r).bloodSugar.value = .num 0 ∧
          (⟨host.toLocaleDateString d, .num 0⟩ : SugarPoint) ∈
            sugarTrendData (normalizedTrends host rawTrends)) ∧
      (r.systolic = .null → r.diastolic ≠ .nan →
        (normalizeRecord host r).bloodPressure.systolic = .num 0 ∧
          ∃ diastolic, (⟨host.toLocaleDateString d, .num 0, diastolic⟩ : BpPoint) ∈
            bpTrendData (normalizedTrends host rawTrends)) ∧
      (r.diastolic = .null → r.systolic ≠ .nan →
        (normalizeRecord host r).bloodPressure.diastolic = .num 0 ∧
          ∃ systolic, (⟨host.toLocaleDateString d, systolic, .num 0⟩ : BpPoint) ∈
            bpTrendData (normalizedTrends host rawTrends)) := by
  have hkeep : trendFilter r = true :=
    (trendFilter_iff r).2 ⟨by simp [hdate, truthyString, hdated], hsystolic, hdiastolic, hsugar⟩
  have hnorm := mem_normalizedTrends_of_filter host rawTrends r hmem hkeep
  have hd : (normalizeRecord host r).date = host.toLocaleDateString d := by
    simp [normalizeRecord, hdate]
  refine ⟨hnorm, fun hnull => ?_, fun hnull hother => ?_, fun hnull hother => ?_⟩
  · have hval : (normalizeRecord host r).bloodSugar.value = .num 0 := by
      simp [normalizeRecord, hnull, number_null]
    refine ⟨hval, List.mem_map.2 ⟨normalizeRecord host r, List.mem_filter.2 ⟨hnorm, ?_⟩, ?_⟩⟩
    · simp [hval, JsNum.isNaN, JsNum.toNumber]
    · rw [hd, hval]
  · have hval : (normalizeRecord host r).bloodPressure.systolic = .num 0 := by
      simp [normalizeRecord, hnull, number_null]
    have hoth := number_defined r.diastolic hdiastolic hother
    have hdia : (normalizeRecord host r).bloodPressure.diastolic = Number r.diastolic := rfl
    refine ⟨hval, Number r.diastolic,
      List.mem_map.2 ⟨normalizeRecord host r, List.mem_filter.2 ⟨hnorm, ?_⟩, ?_⟩⟩
    · have hzero : (JsNum.num 0).isNaN = false := rfl
      simp only [hval, hdia, hoth.2, hzero]
      simp [hoth.1]
    · rw [hd, hval, hdia]
  · have hval : (normalizeRecord host r).bloodPressure.diastolic = .num 0 := by
      simp [normalizeRecord, hnull, number_null]
    have hoth := number_defined r.systolic hsystolic hother
    have hsys : (normalizeRecord host r).bloodPressure.systolic = Number r.systolic := rfl
    refine ⟨hval, Number r.systolic,
      List.mem_map.2 ⟨normalizeRecord host r, List.mem_filter.2 ⟨hnorm, ?_⟩, ?_⟩⟩
    · have hzero : (JsNum.num 0).isNaN = false := rfl
      simp only [hval, hsys, hoth.2, hzero]
      simp [hoth.1]
    · rw [hd, hval, hsys]

/-- C21 at a concrete input: the reading dated 20250917 with blood pressure 125/82 and a `null`
blood sugar is charted with the blood-sugar value 0. -/
theorem null_vital_charted_as_zero_witness :
    nullSugarReading.sugar = .null ∧
      (⟨"20250917", .num 0⟩ : SugarPoint) ∈
        sugarTrendData (normalizedTrends exampleHost [nullSugarReading]) :=
  ⟨rfl,
    ((null_vital_charted_as_zero exampleHost [nullSugarReading] nullSugarReading "20250917"
      (by decide) rfl (by decide) (by decide) (by decide) (by decide)).2.1 rfl).2⟩

/-! ### C22: the average adherence of the doctor dashboard -/

theorem roundHalfEven_intCast (z : ℤ) : roundHalfEven (z : ℚ) = z := by
  simp [roundHalfEven]

theorem roundHalfEven_error (x : ℚ) : |(roundHalfEven x : ℚ) - x| ≤ 1 / 2 := by
  have h1 := Int.floor_le x
  have h2 := Int.lt_floor_add_one x
  unfold roundHalfEven
  split_ifs with ha hb hc
  · rw [abs_le]; constructor <;> linarith
  · push_cast; rw [abs_le]; constructor <;> linarith
  · rw [abs_le]; constructor <;> linarith
  · push_cast; rw [abs_le]; constructor <;> linarith

theorem toDouble_representable (x : ℚ) (h : ℤ) (j : ℤ) (hx : 0 < x)
    (hmin : -1022 ≤ Int.log 2 x) (hrep : x = (h : ℚ) * 2 ^ j) (hj : Int.log 2 x - 52 ≤ j)
    (hmax : x < 2 ^ (1024 : ℕ)) : toDouble x = .num x := by
  have habs : |x| = x := abs_of_pos hx
  have hexp : ulpExponent x = Int.log 2 x - 52 := by
    simp [ulpExponent, habs, max_eq_left hmin]
  obtain ⟨t, ht⟩ := Int.eq_ofNat_of_zero_le (sub_nonneg.2 hj)
  have h2 : (2 : ℚ) ≠ 0 := by norm_num
  have hquot : x / 2 ^ (Int.log 2 x - 52) = ((h * 2 ^ t : ℤ) : ℚ) := by
    have hjt : j = (Int.log 2 x - 52) + t := by omega
    rw [hrep] 
    rw [mul_div_assoc, ← zpow_sub₀ h2]
    have : j - (Int.log 2 ((h:ℚ) * 2 ^ j) - 52) = (t : ℤ) := by
      rw [← hrep]; omega
    rw [this]
    push_cast
    rw [zpow_natCast]
  have hr : (roundHalfEven (x / 2 ^ ulpExponent x) : ℚ) * 2 ^ ulpExponent x = x := by
    rw [hexp, hquot, roundHalfEven_intCast, ← hquot]
    rw [div_mul_cancel₀]
    exact zpow_ne_zero _ h2
  simp only [toDouble, hr, habs]
  rw [if_neg (not_le.2 hmax)]


theorem toDouble_zero : toDouble 0 = .num 0 := by
  simp [toDouble, roundHalfEven]

theorem toDouble_natCast (m : ℕ) (hm : m < 2 ^ 53) : toDouble (m : ℚ) = .num (m : ℚ) := by
  rcases Nat.eq_zero_or_pos m with h0 | hpos
  · subst h0
    simpa using toDouble_zero
  · have hx : (0 : ℚ) < (m : ℚ) := by exact_mod_cast hpos
    have hlt : (m : ℚ) < ((2 : ℕ) : ℚ) ^ (53 : ℤ) := by
      have h1 : (m : ℚ) < 2 ^ (53 : ℕ) := by exact_mod_cast hm
      have h2 : ((2 : ℕ) : ℚ) ^ (53 : ℤ) = 2 ^ (53 : ℕ) := by norm_num
      rw [h2]
      exact h1
    have hlog : Int.log 2 (m : ℚ) < 53 := (Int.lt_zpow_iff_log_lt (by norm_num) hx).1 hlt
    have hlog0 : 0 ≤ Int.log 2 (m : ℚ) := by
      rw [Int.log_natCast]
      exact Int.natCast_nonneg _
    refine toDouble_representable (m : ℚ) (m : ℤ) 0 hx (by omega) (by simp) (by omega) ?_
    have : (m : ℚ) < ((2 ^ 53 : ℕ) : ℚ) := by exact_mod_cast hm
    calc (m : ℚ) < ((2 ^ 53 : ℕ) : ℚ) := this
      _ ≤ 2 ^ (1024 : ℕ) := by norm_num

theorem toDouble_close (x : ℚ) (hx : 0 < x) (hlow : (2 : ℚ) ^ (-1022 : ℤ) ≤ x)
    (hhigh : x < 2 ^ (1023 : ℕ)) :
    ∃ r, toDouble x = .num r ∧ |r - x| ≤ x / 2 ^ (53 : ℕ) := by
  have habs : |x| = x := abs_of_pos hx
  have h2 : (2 : ℚ) ≠ 0 := by norm_num
  have hmin : -1022 ≤ Int.log 2 x :=
    (Int.zpow_le_iff_le_log (by norm_num) hx).1 (by simpa using hlow)
  have hexp : ulpExponent x = Int.log 2 x - 52 := by
    simp [ulpExponent, habs, max_eq_left hmin]
  have hupos : (0 : ℚ) < 2 ^ (Int.log 2 x - 52) := zpow_pos (by norm_num) _
  have hule : (2 : ℚ) ^ (Int.log 2 x - 52) ≤ x / 2 ^ (52 : ℕ) := by
    have hle : ((2 : ℕ) : ℚ) ^ Int.log 2 x ≤ x := Int.zpow_log_le_self (by norm_num) hx
    rw [zpow_sub₀ h2]
    have : (2 : ℚ) ^ (52 : ℤ) = 2 ^ (52 : ℕ) := by norm_num
    rw [this]
    apply div_le_div_of_nonneg_right _ (by positivity)
    simpa using hle
  have herr := roundHalfEven_error (x / 2 ^ (Int.log 2 x - 52))
  have hclose : |(roundHalfEven (x / 2 ^ (Int.log 2 x - 52)) : ℚ) * 2 ^ (Int.log 2 x - 52) - x| ≤
      x / 2 ^ (53 : ℕ) := by
    have hrew : (roundHalfEven (x / 2 ^ (Int.log 2 x - 52)) : ℚ) * 2 ^ (Int.log 2 x - 52) - x =
        ((roundHalfEven (x / 2 ^ (Int.log 2 x - 52)) : ℚ) - x / 2 ^ (Int.log 2 x - 52)) *
          2 ^ (Int.log 2 x - 52) := by
      field_simp
    rw [hrew, abs_mul, abs_of_pos hupos]
    calc |(roundHalfEven (x / 2 ^ (Int.log 2 x - 52)) : ℚ) - x / 2 ^ (Int.log 2 x - 52)| *
          2 ^ (Int.log 2 x - 52) ≤ 1 / 2 * 2 ^ (Int.log 2 x - 52) :=
          mul_le_mul_of_nonneg_right herr hupos.le
      _ ≤ 1 / 2 * (x / 2 ^ (52 : ℕ)) := by
          apply mul_le_mul_of_nonneg_left hule (by norm_num)
      _ = x / 2 ^ (53 : ℕ) := by ring
  refine ⟨(roundHalfEven (x / 2 ^ (Int.log 2 x - 52)) : ℚ) * 2 ^ (Int.log 2 x - 52), ?_, hclose⟩
  simp only [toDouble, hexp]
  rw [if_neg]
  rw [not_le]
  have hb := (abs_le.1 hclose).2
  have hb1 := (abs_le.1 hclose).1
  rw [abs_lt]
  constructor
  · have : (0 : ℚ) ≤ x / 2 ^ (53 : ℕ) := by positivity
    have hx53 : x / 2 ^ (53 : ℕ) ≤ x := div_le_self hx.le (by norm_num)
    have hpow : (0 : ℚ) < 2 ^ (1024 : ℕ) := by positivity
    linarith
  · have hx53 : x / 2 ^ (53 : ℕ) ≤ x := div_le_self hx.le (by norm_num)
    have : (2 : ℚ) ^ (1024 : ℕ) = 2 * 2 ^ (1023 : ℕ) := by ring
    linarith


theorem round_toDouble_quotient (S n B : ℕ) (hn : 0 < n) (hS : S ≤ n * B)
    (hsize : n * B < 2 ^ 52) :
    ∃ r, toDouble ((S : ℚ) / n) = .num r ∧ ⌊r + 1 / 2⌋ = ⌊(S : ℚ) / n + 1 / 2⌋ := by
  rcases Nat.eq_zero_or_pos S with h0 | hSpos
  · subst h0
    exact ⟨0, by simpa using toDouble_zero, by simp⟩
  have hnq : (0 : ℚ) < (n : ℚ) := by exact_mod_cast hn
  have hSq : (1 : ℚ) ≤ (S : ℚ) := by exact_mod_cast hSpos
  have hBpos : 0 < B := by
    rcases Nat.eq_zero_or_pos B with hB | hB
    · subst hB
      omega
    · exact hB
  have hn52 : (n : ℚ) < 2 ^ (52 : ℕ) := by
    have : n < 2 ^ 52 := lt_of_le_of_lt (Nat.le_mul_of_pos_right n hBpos) hsize
    exact_mod_cast this
  have hB52 : (B : ℚ) < 2 ^ (52 : ℕ) := by
    have : B < 2 ^ 52 := lt_of_le_of_lt (Nat.le_mul_of_pos_left B hn) hsize
    exact_mod_cast this
  have hnB : (n : ℚ) * B < 2 ^ (52 : ℕ) := by exact_mod_cast hsize
  have hSle : (S : ℚ) ≤ n * B := by exact_mod_cast hS
  obtain ⟨x, hxdef⟩ : ∃ x : ℚ, x = (S : ℚ) / n := ⟨_, rfl⟩
  rw [← hxdef]
  have hxn : x * n = S := by
    rw [hxdef]
    field_simp
  have hx : 0 < x := by
    rw [hxdef]
    positivity
  have hxB : x ≤ B := by
    rw [hxdef, div_le_iff₀ hnq]
    linarith
  have hxlow : 1 / (n : ℚ) ≤ x := by
    rw [hxdef]
    exact div_le_div_of_nonneg_right hSq hnq.le
  have hlow52 : (2 : ℚ) ^ (-52 : ℤ) ≤ x := by
    have h1 : (2 : ℚ) ^ (-52 : ℤ) = 1 / 2 ^ (52 : ℕ) := by norm_num
    rw [h1]
    refine le_trans ?_ hxlow
    exact one_div_le_one_div_of_le hnq hn52.le
  have hlow : (2 : ℚ) ^ (-1022 : ℤ) ≤ x := by
    refine le_trans ?_ hlow52
    exact zpow_le_zpow_right₀ (by norm_num) (by norm_num)
  have hx52 : x < 2 ^ (52 : ℕ) := lt_of_le_of_lt hxB hB52
  have hk1 := Int.floor_le (x + 1 / 2)
  have hk2 := Int.lt_floor_add_one (x + 1 / 2)
  by_cases heq : ((⌊x + 1 / 2⌋ : ℤ) : ℚ) = x + 1 / 2
  · have hrep : x = ((2 * ⌊x + 1 / 2⌋ - 1 : ℤ) : ℚ) * 2 ^ (-1 : ℤ) := by
      push_cast
      rw [heq]
      norm_num
      ring
    have hlog : Int.log 2 x < 52 := by
      refine (Int.lt_zpow_iff_log_lt (by norm_num) hx).1 ?_
      have : ((2 : ℕ) : ℚ) ^ (52 : ℤ) = 2 ^ (52 : ℕ) := by norm_num
      rw [this]
      exact hx52
    have hmin : -1022 ≤ Int.log 2 x :=
      (Int.zpow_le_iff_le_log (by norm_num) hx).1 (by simpa using hlow)
    have hexact := toDouble_representable x _ (-1) hx hmin hrep (by omega)
      (lt_trans hx52 (by norm_num))
    exact ⟨x, hexact, rfl⟩
  · have hlt : ((⌊x + 1 / 2⌋ : ℤ) : ℚ) < x + 1 / 2 := lt_of_le_of_ne hk1 heq
    have hmul : (x + 1 / 2) * n = S + n / 2 := by
      rw [add_mul, hxn]
      ring
    have h1 : (2 * ⌊x + 1 / 2⌋ * (n : ℤ) : ℤ) < 2 * (S : ℤ) + n := by
      have h := mul_lt_mul_of_pos_right hlt hnq
      rw [hmul] at h
      have h' : (2 * (⌊x + 1 / 2⌋ : ℚ) * n) < 2 * S + n := by linarith
      exact_mod_cast h'
    have h2 : (2 * (S : ℤ) + n : ℤ) < 2 * (⌊x + 1 / 2⌋ + 1) * (n : ℤ) := by
      have h := mul_lt_mul_of_pos_right hk2 hnq
      rw [hmul] at h
      have h' : (2 * (S : ℚ) + n) < 2 * ((⌊x + 1 / 2⌋ : ℚ) + 1) * n := by linarith
      exact_mod_cast h'
    have h1q : (2 * (⌊x + 1 / 2⌋ : ℚ) * n + 1) ≤ 2 * S + n := by
      exact_mod_cast Int.add_one_le_iff.2 h1
    have h2q : (2 * (S : ℚ) + n + 1) ≤ 2 * ((⌊x + 1 / 2⌋ : ℚ) + 1) * n := by
      exact_mod_cast Int.add_one_le_iff.2 h2
    have hgap1 : 1 / (2 * (n : ℚ)) ≤ x + 1 / 2 - ⌊x + 1 / 2⌋ := by
      rw [div_le_iff₀ (by positivity)]
      have : (x + 1 / 2 - (⌊x + 1 / 2⌋ : ℚ)) * (2 * n) =
          2 * S + n - 2 * (⌊x + 1 / 2⌋ : ℚ) * n := by
        rw [← hxn]
        ring
      rw [this]
      linarith
    have hgap2 : 1 / (2 * (n : ℚ)) ≤ (⌊x + 1 / 2⌋ : ℚ) + 1 - (x + 1 / 2) := by
      rw [div_le_iff₀ (by positivity)]
      have : ((⌊x + 1 / 2⌋ : ℚ) + 1 - (x + 1 / 2)) * (2 * n) =
          2 * ((⌊x + 1 / 2⌋ : ℚ) + 1) * n - (2 * S + n) := by
        rw [← hxn]
        ring
      rw [this]
      linarith
    obtain ⟨r, hr, hclose⟩ := toDouble_close x hx hlow
      (lt_trans hx52 (by norm_num))
    have hd : x / 2 ^ (53 : ℕ) < 1 / (2 * (n : ℚ)) := by
      rw [div_lt_div_iff₀ (by positivity) (by positivity)]
      have : x * (2 * n) ≤ B * (2 * n) :=
        mul_le_mul_of_nonneg_right hxB (by positivity)
      have h53 : (2 : ℚ) ^ (53 : ℕ) = 2 * 2 ^ (52 : ℕ) := by ring
      rw [h53]
      linarith
    have hb := abs_le.1 hclose
    refine ⟨r, hr, ?_⟩
    rw [Int.floor_eq_iff]
    constructor
    · linarith [hb.1]
    · linarith [hb.2]


theorem toDouble_two_pow_53 : toDouble 9007199254740992 = .num 9007199254740992 := by
  have hlog : Int.log 2 (9007199254740992 : ℚ) = 53 := by
    have h : (9007199254740992 : ℚ) = ((2 : ℕ) : ℚ) ^ (53 : ℤ) := by norm_num
    rw [h, Int.log_zpow (by norm_num)]
  exact toDouble_representable 9007199254740992 1 53 (by norm_num) (by rw [hlog]; norm_num)
    (by norm_num) (by rw [hlog]; norm_num) (by norm_num)

theorem toDouble_two_pow_53_add_one :
    toDouble (9007199254740992 + 1) = .num 9007199254740992 := by
  have hpos : (0 : ℚ) < 9007199254740992 + 1 := by norm_num
  have hlog : Int.log 2 ((9007199254740992 : ℚ) + 1) = 53 := by
    apply le_antisymm
    · have h : Int.log 2 ((9007199254740992 : ℚ) + 1) < 54 :=
        (Int.lt_zpow_iff_log_lt (by norm_num) hpos).1 (by norm_num)
      omega
    · exact (Int.zpow_le_iff_le_log (by norm_num) hpos).1 (by norm_num)
  have hexp : ulpExponent ((9007199254740992 : ℚ) + 1) = 1 := by
    simp only [ulpExponent, abs_of_pos hpos, hlog]
    norm_num
  have hquot : ((9007199254740992 : ℚ) + 1) / 2 ^ (1 : ℤ) = 9007199254740993 / 2 := by
    norm_num
  have hfloor : ⌊(9007199254740993 : ℚ) / 2⌋ = 4503599627370496 := by
    rw [Int.floor_eq_iff]
    norm_num
  have hround : roundHalfEven ((9007199254740993 : ℚ) / 2) = 4503599627370496 := by
    simp only [roundHalfEven, hfloor]
    norm_num
  simp only [toDouble, hexp, hquot, hround]
  norm_num

theorem foldl_add_adherence (l : List PatientOverview) (B m : ℕ)
    (hint : ∀ p ∈ l, ∃ a : ℕ, p.adherence = .num a ∧ a ≤ B)
    (hsize : m + l.length * B < 2 ^ 53) :
    ∃ S : ℕ, S ≤ l.length * B ∧ (l.map PatientOverview.adherenceValue).sum = (S : ℚ) ∧
      l.foldl (fun (sum : JsResult) (p : PatientOverview) => sum.add p.adherence)
          (JsResult.num (m : ℚ)) = .num ((m + S : ℕ) : ℚ) := by
  induction l generalizing m with
  | nil => exact ⟨0, by simp, by simp, by simp⟩
  | cons p l ih =>
    obtain ⟨a, ha, haB⟩ := hint p (List.mem_cons_self p l)
    have hlen : (p :: l).length * B = l.length * B + B := by
      rw [List.length_cons, Nat.add_mul, Nat.one_mul]
    rw [hlen] at hsize
    have hlt : m + a < 2 ^ 53 := by omega
    have hstep : (JsResult.num (m : ℚ)).add p.adherence = .num ((m + a : ℕ) : ℚ) := by
      rw [ha]
      show toDouble ((m : ℚ) + (a : ℚ)) = .num ((m + a : ℕ) : ℚ)
      rw [← Nat.cast_add]
      exact toDouble_natCast (m + a) hlt
    obtain ⟨S, hS, hsum, hfold⟩ := ih (m + a)
      (fun x hx => hint x (List.mem_cons_of_mem p hx)) (by omega)
    refine ⟨a + S, by rw [hlen]; omega, ?_, ?_⟩
    · simp only [List.map_cons, List.sum_cons, hsum, PatientOverview.adherenceValue, ha,
        JsNum.toNumber, Option.getD_some]
      push_cast
      rfl
    · rw [List.foldl_cons, hstep, hfold]
      congr 2
      omega

theorem sum_bounds (xs : List ℚ) (lo hi : ℚ) (hall : ∀ x ∈ xs, lo ≤ x ∧ x ≤ hi) :
    lo * (xs.length : ℚ) ≤ xs.sum ∧ xs.sum ≤ hi * (xs.length : ℚ) := by
  induction xs with
  | nil => simp
  | cons x xs ih =>
    have hx := hall x (List.mem_cons_self x xs)
    have ih2 := ih fun y hy => hall y (List.mem_cons_of_mem x hy)
    simp only [List.sum_cons, List.length_cons, Nat.cast_add, Nat.cast_one]
    constructor
    · nlinarith [hx.1, ih2.1]
    · nlinarith [hx.2, ih2.2]

theorem avgAdherence_empty : avgAdherence [] = .nan := by
  simp [avgAdherence, JsResult.divCount, JsResult.round]

theorem avgAdherence_eq_round_mean (patientOverview : List PatientOverview) (B : ℕ)
    (hnonempty : patientOverview ≠ [])
    (hint : ∀ p ∈ patientOverview, ∃ a : ℕ, p.adherence = .num a ∧ a ≤ B)
    (hsize : patientOverview.length * B < 2 ^ 52) :
    avgAdherence patientOverview = .num (⌊meanAdherence patientOverview + 1 / 2⌋ : Int) := by
  have hlen : patientOverview.length ≠ 0 := fun h => hnonempty (List.length_eq_zero.1 h)
  obtain ⟨S, hS, hsum, hfold⟩ := foldl_add_adherence patientOverview B 0 hint (by omega)
  obtain ⟨r, hr, hround⟩ := round_toDouble_quotient S patientOverview.length B
    (Nat.pos_of_ne_zero hlen) hS hsize
  have hfold0 : patientOverview.foldl
      (fun (sum : JsResult) (p : PatientOverview) => sum.add p.adherence) (JsResult.num 0) =
      .num (S : ℚ) := by
    have h := hfold
    simp only [Nat.cast_zero, Nat.zero_add] at h
    exact h
  simp only [avgAdherence, hfold0, JsResult.divCount, hlen, if_false, hr, JsResult.round,
    hround, meanAdherence, hsum]

theorem avgAdherence_pair (p1 p2 : PatientOverview) :
    avgAdherence [p1, p2] =
      ((((JsResult.num 0).add p1.adherence).add p2.adherence).divCount 2).round := rfl

/-- C22, as stated, fails on the code: for the two patients with the integer adherence values
`2^53` and 1 the mean is `(2^53 + 1) / 2`, which rounded to the nearest integer, halves up, is
4503599627370497, while `avgAdherence` is 4503599627370496, the sum `2^53 + 1` being `2^53` in
double arithmetic. -/
theorem avgAdherence_mean_counterexample :
    hugePatients ≠ [] ∧
      (∀ p ∈ hugePatients, ∃ a : Int, p.adherence = .num a) ∧
      ⌊meanAdherence hugePatients + 1 / 2⌋ = 4503599627370497 ∧
      avgAdherence hugePatients = .num 4503599627370496 := by
  refine ⟨by decide, ?_, ?_, ?_⟩
  · intro p hp
    simp only [hugePatients, List.mem_cons, List.mem_singleton, List.not_mem_nil,
      or_false] at hp
    rcases hp with rfl | rfl
    · exact ⟨9007199254740992, by norm_num⟩
    · exact ⟨1, by norm_num⟩
  · simp only [meanAdherence, hugePatients, List.map_cons, List.map_nil, List.sum_cons,
      List.sum_nil, PatientOverview.adherenceValue, JsNum.toNumber, Option.getD_some,
      List.length_cons, List.length_nil]
    rw [Int.floor_eq_iff]
    norm_num
  · have hsum1 : (JsResult.num 0).add (JsNum.num 9007199254740992) =
        .num 9007199254740992 := by
      show toDouble (0 + 9007199254740992) = .num 9007199254740992
      rw [zero_add]
      exact toDouble_two_pow_53
    have hsum2 : (JsResult.num 9007199254740992).add (JsNum.num 1) =
        .num 9007199254740992 := by
      show toDouble (9007199254740992 + 1) = .num 9007199254740992
      exact toDouble_two_pow_53_add_one
    have hdiv : (JsResult.num 9007199254740992).divCount 2 = .num 4503599627370496 := by
      show (if (2 : ℕ) = 0 then
          (if (9007199254740992 : ℚ) = 0 then JsResult.nan
            else .infinity (decide ((9007199254740992 : ℚ) < 0)))
          else toDouble (9007199254740992 / ((2 : ℕ) : ℚ))) = .num 4503599627370496
      have hhalf : (9007199254740992 : ℚ) / ((2 : ℕ) : ℚ) = ((4503599627370496 : ℕ) : ℚ) := by
        norm_num
      rw [if_neg (by norm_num), hhalf, toDouble_natCast 4503599627370496 (by norm_num)]
      norm_num
    have hround : (JsResult.num 4503599627370496).round = .num 4503599627370496 := by
      show JsResult.num ((⌊(4503599627370496 : ℚ) + 1 / 2⌋ : ℤ) : ℚ) = .num 4503599627370496
      have hfloor : ⌊(4503599627370496 : ℚ) + 1 / 2⌋ = 4503599627370496 := by
        rw [Int.floor_eq_iff]
        norm_num
      rw [hfloor]
      norm_num
    rw [hugePatients, avgAdherence_pair]
    show ((((JsResult.num 0).add (JsNum.num 9007199254740992)).add (JsNum.num 1)).divCount
      2).round = .num 4503599627370496
    rw [hsum1, hsum2, hdiv, hround]

/-- C22, amended: for every non-empty patient list whose adherence values are non-negative
integers not above a bound `B` with `length * B < 2^52` (so that the sum and the quotient are
computed without a rounding that matters), `avgAdherence` is the arithmetic mean rounded to the
nearest integer, halves up (an integer within one half of the mean), and lies between any integer
bounds that hold for all adherence values, in particular between the smallest and the largest; the
division is unguarded, so for the empty list the value is `NaN`, and the empty list is the state a
failed alerts request on the first load leaves, the patient list being set only after the alerts
arrived. -/
theorem avgAdherence_mean (patientOverview : List PatientOverview) (B : ℕ)
    (hnonempty : patientOverview ≠ [])
    (hint : ∀ p ∈ patientOverview, ∃ a : ℕ, p.adherence = .num a ∧ a ≤ B)
    (hsize : patientOverview.length * B < 2 ^ 52) :
    (∃ avg : Int, avgAdherence patientOverview = .num avg ∧
        avg = ⌊meanAdherence patientOverview + 1 / 2⌋ ∧
        meanAdherence patientOverview - 1 / 2 < avg ∧
        (avg : ℚ) ≤ meanAdherence patientOverview + 1 / 2 ∧
        ∀ lo hi : Int,
          (∀ p ∈ patientOverview, (lo : ℚ) ≤ p.adherenceValue ∧ p.adherenceValue ≤ hi) →
            lo ≤ avg ∧ avg ≤ hi) ∧
      avgAdherence [] = .nan ∧
      doctorFetchDashboardData .rejected DoctorState.initial = ⟨[], [], false⟩ ∧
      avgAdherence (doctorFetchDashboardData .rejected DoctorState.initial).patientOverview =
        .nan := by
  refine ⟨?_, avgAdherence_empty, rfl, avgAdherence_empty⟩
  have hlen : patientOverview.length ≠ 0 := fun h => hnonempty (List.length_eq_zero.1 h)
  have hpos : (0 : ℚ) < (patientOverview.length : ℚ) := by
    exact_mod_cast Nat.pos_of_ne_zero hlen
  have hval := avgAdherence_eq_round_mean patientOverview B hnonempty hint hsize
  refine ⟨⌊meanAdherence patientOverview + 1 / 2⌋, hval, rfl, ?_, ?_, fun lo hi hall => ?_⟩
  · have := Int.lt_floor_add_one (meanAdherence patientOverview + 1 / 2)
    linarith
  · exact Int.floor_le _
  · have hb := sum_bounds (patientOverview.map PatientOverview.adherenceValue) lo hi (by
      intro x hx
      obtain ⟨p, hp, rfl⟩ := List.mem_map.1 hx
      exact hall p hp)
    rw [List.length_map] at hb
    have hmean_lo : (lo : ℚ) ≤ meanAdherence patientOverview := by
      rw [meanAdherence, le_div_iff₀ hpos]
      exact hb.1
    have hmean_hi : meanAdherence patientOverview ≤ hi := by
      rw [meanAdherence, div_le_iff₀ hpos]
      exact hb.2
    constructor
    · rw [Int.le_floor]
      linarith
    · have hlt : ⌊meanAdherence patientOverview + 1 / 2⌋ < hi + 1 := by
        rw [Int.floor_lt]
        push_cast
        linarith
      omega

theorem doctorPatients_percentages :
    ∀ p ∈ doctorPatients, ∃ a : ℕ, p.adherence = .num a ∧ a ≤ 100 := by
  intro p hp
  simp only [doctorPatients, List.mem_cons, List.mem_singleton, List.not_mem_nil,
    or_false] at hp
  rcases hp with rfl | rfl | rfl
  · exact ⟨78, by norm_num, by norm_num⟩
  · exact ⟨92, by norm_num, by norm_num⟩
  · exact ⟨95, by norm_num, by norm_num⟩

/-- C22, amended, at a concrete input: the three patients of the dashboard (78, 92, 95), with the
bound 100, give an integer average between 78 and 95. -/
theorem avgAdherence_mean_witness :
    doctorPatients ≠ [] ∧ doctorPatients.length * 100 < 2 ^ 52 ∧
      ∃ avg : Int, avgAdherence doctorPatients = .num avg ∧ 78 ≤ avg ∧ avg ≤ 95 :=
  ⟨by decide, by decide,
    match (avgAdherence_mean doctorPatients 100 (by decide) doctorPatients_percentages
      (by decide)).1 with
    | ⟨avg, hval, _, _, _, hbounds⟩ =>
      ⟨avg, hval, hbounds 78 95 (by
        intro p hp
        simp only [doctorPatients, List.mem_cons, List.mem_singleton, List.not_mem_nil,
          or_false] at hp
        rcases hp with rfl | rfl | rfl <;>
          norm_num [PatientOverview.adherenceValue, JsNum.toNumber])⟩⟩

/-- The average the doctor dashboard shows for its three patients is 88 (265 / 3 rounded). -/
theorem avgAdherence_doctorPatients : avgAdherence doctorPatients = .num 88 := by
  rw [avgAdherence_eq_round_mean doctorPatients 100 (by decide) doctorPatients_percentages
    (by decide)]
  have hmean : meanAdherence doctorPatients = 265 / 3 := by
    simp only [meanAdherence, doctorPatients, List.map_cons, List.map_nil, List.sum_cons,
      List.sum_nil, PatientOverview.adherenceValue, JsNum.toNumber, Option.getD_some,
      List.length_cons, List.length_nil]
    norm_num
  have hfloor : ⌊(265 : ℚ) / 3 + 1 / 2⌋ = 88 := by
    rw [Int.floor_eq_iff]
    norm_num
  rw [hmean, hfloor]
  norm_num

end CareOClock
